import Mathlib

/-!
# Call-media bridge (`src/index.js`): session state machine

A shallow embedding of the per-connection handlers of `src/index.js`
(`handleSpeechStartedEvent`, `sendMark`, the two `on('message')` handlers,
the `on('close')` handler and `saveCallData`) and of the status override
`POST /update-status`, followed by theorems about them.

Conventions of the embedding.
* JavaScript `null` / `undefined` are `none`; a present value is `some v`.
* A `send` on a socket is recorded by appending the frame to an output list.
* Media timestamps are integers (milliseconds); identifiers and texts are strings.
* The notes are held as UTF-16 code units (`JsString`), the unit in which lines 73-74
  measure and cut them; the other texts are only concatenated, compared and searched.
-/

namespace Clnrounte

/-! ## Data model -/

/-- A JavaScript string value as the language holds it: its sequence of UTF-16 code
units. `length` and `substring` count in these units, and a cut may separate the two
halves of a surrogate pair. -/
structure JsString where
  data : List Nat
  deriving DecidableEq

/-- The UTF-16 code units of one character: the character itself below 65536, and
otherwise its high and low surrogates. -/
def utf16Units (c : Char) : List Nat :=
  if c.toNat < 65536 then [c.toNat]
  else [55296 + (c.toNat - 65536) / 1024, 56320 + (c.toNat - 65536) % 1024]

/-- The JavaScript value of a text: the code units of its characters, in order. -/
def JsString.ofString (s : String) : JsString := ⟨s.data.flatMap utf16Units⟩

instance : Coe String JsString := ⟨JsString.ofString⟩

/-- The property `length` of a JavaScript string: its number of code units. -/
def JsString.length (s : JsString) : Nat := s.data.length

/-- Concatenation of JavaScript strings (`+`). -/
def JsString.append (a b : JsString) : JsString := ⟨a.data ++ b.data⟩

instance : Append JsString := ⟨JsString.append⟩

/-- One entry of `currentCallData.conversation` (`role`, `content`, `tempId`). -/
structure Turn where
  role : String
  content : String
  tempId : Option String
  deriving DecidableEq

/-- The process-wide `currentCallData` object (lines 56-61 and 126-132).
`conversation` is `none` until `/incoming-call` installs the empty array. -/
structure CallData where
  user_id : Option String
  caller_number : Option String
  status : String
  notes : JsString
  conversation : Option (List Turn)
  deriving DecidableEq

/-- The connection-specific variables declared at lines 143-147. -/
structure Session where
  streamId : Option String
  latestMediaTimestamp : Int
  lastAssistantItem : Option String
  markQueue : List String
  responseStartTimestampTelnyx : Option Int
  deriving DecidableEq

/-- The `delta` field of an AI relay message: missing, a string (audio payload),
or an object with fields `type` and `text` (content delta). -/
inductive Delta where
  | undefined
  | str (payload : String)
  | obj (type : String) (text : String)
  deriving DecidableEq

/-- A parsed AI relay message (`response` at line 256). -/
structure Response where
  type : String
  delta : Delta
  item_id : Option String
  deriving DecidableEq

/-- The `media` field of a telephony message. -/
structure Media where
  timestamp : Int
  payload : String
  deriving DecidableEq

/-- The `start` field of a telephony message (`from` is written `callerFrom`). -/
structure Start where
  streamId : Option String
  callerFrom : Option String
  deriving DecidableEq

/-- A parsed telephony message (`data` at line 334). -/
structure Data where
  event : String
  media : Option Media
  start : Option Start
  deriving DecidableEq

/-- Frames sent with `openAiWs.send`. -/
inductive AiFrame where
  | inputAudioBufferAppend (audio : String)
  | conversationItemTruncate (item_id : String) (content_index : Nat) (audio_end_ms : Int)
  deriving DecidableEq

/-- Frames sent with `connection.send`. -/
inductive TelnyxFrame where
  | media (streamId : Option String) (payload : Delta)
  | mark (streamId : String) (name : String)
  | clear (streamId : Option String)
  deriving DecidableEq

/-- The object `dataToSend` of `saveCallData`: `currentCallData` without
`conversation`. -/
structure Payload where
  user_id : Option String
  caller_number : Option String
  status : String
  notes : JsString
  deriving DecidableEq

/-- Everything a handler sent while it ran, in order, per destination. -/
structure Out where
  toAi : List AiFrame
  toTelnyx : List TelnyxFrame
  webhook : List Payload
  deriving DecidableEq

/-- Nothing sent. -/
def Out.nil : Out := ⟨[], [], []⟩

/-- Outputs of two consecutive pieces of a handler. -/
def Out.append (a b : Out) : Out :=
  ⟨a.toAi ++ b.toAi, a.toTelnyx ++ b.toTelnyx, a.webhook ++ b.webhook⟩

/-! ## JavaScript primitives used by the handlers -/

/-- Truthiness of a nullable string (`if (streamId)`, `if (response.item_id)`,
`if (lastAssistantItem)`, `if (WEBHOOK_URL)`): neither null nor the empty string. -/
def truthy : Option String → Bool
  | some s => s != ""
  | none => false

/-- Truthiness of a nullable number (`!responseStartTimestampTelnyx`):
neither null nor zero. -/
def truthyNum : Option Int → Bool
  | some n => n != 0
  | none => false

/-- Truthiness of `response.delta`: an object, or a non-empty string. -/
def Delta.truthy : Delta → Bool
  | .undefined => false
  | .str p => p != ""
  | .obj _ _ => true

/-- Numeric value of a nullable number in a subtraction (`null` counts as 0). -/
def toNumber : Option Int → Int
  | some n => n
  | none => 0

/-! ## Interruption handler and mark sender -/

/-- The function `handleSpeechStartedEvent` (lines 206-232): the session afterwards
and the frames it sent. -/
def handleSpeechStartedEvent (s : Session) : Session × Out :=
  if s.markQueue.length > 0 ∧ s.responseStartTimestampTelnyx ≠ none then
    let elapsedTime := s.latestMediaTimestamp - toNumber s.responseStartTimestampTelnyx
    let toAi : List AiFrame :=
      match s.lastAssistantItem with
      | some item =>
        if item != "" then [AiFrame.conversationItemTruncate item 0 elapsedTime] else []
      | none => []
    ({ s with markQueue := [], lastAssistantItem := none, responseStartTimestampTelnyx := none },
     ⟨toAi, [TelnyxFrame.clear s.streamId], []⟩)
  else
    (s, Out.nil)

/-- The function `sendMark` (lines 235-245), called with the connection's own `streamId`. -/
def sendMark (s : Session) : Session × Out :=
  match s.streamId with
  | some sid =>
    if sid != "" then
      ({ s with markQueue := s.markQueue ++ ["responsePart"] },
       ⟨[], [TelnyxFrame.mark sid "responsePart"], []⟩)
    else (s, Out.nil)
  | none => (s, Out.nil)

/-! ## Strings -/

/-- The method `String.prototype.toLowerCase`, on the ASCII letters (other characters
are left as they are). -/
def toLowerCase (s : String) : String := ⟨s.data.map Char.toLower⟩

/-- The method `String.prototype.includes`: `p` occurs in `s` as a contiguous run. -/
def includes (s p : String) : Bool := decide (p.data <:+: s.data)

/-- The method `Array.prototype.join`: the parts in order, with `sep` between neighbours. -/
def join (sep : String) : List String → String
  | [] => ""
  | [a] => a
  | a :: b :: rest => a ++ sep ++ join sep (b :: rest)

/-- The call `s.substring(0, n)`: the first `n` UTF-16 code units of `s`. -/
def substring0 (s : JsString) (n : Nat) : JsString := ⟨s.data.take n⟩

/-! ## Transcript aggregation (lines 263-295) -/

/-- The predicate passed to `find` at lines 265 and 273-275. -/
def isAssistantItem (item_id : Option String) (item : Turn) : Bool :=
  item.role == "assistant" && item.tempId == item_id

/-- The update `assistantResponse.content += text` on the first item satisfying `p`
(lines 273-278). -/
def appendToFound (p : Turn → Bool) (text : String) : List Turn → List Turn
  | [] => []
  | item :: rest =>
    if p item then { item with content := item.content ++ text } :: rest
    else item :: appendToFound p text rest

/-- Lines 265-279: push a new assistant turn or append to the existing one. -/
def addDelta (conversation : List Turn) (item_id : Option String) (text : String) :
    List Turn :=
  if !(conversation.find? (isAssistantItem item_id)).isSome then
    conversation ++ [{ role := "assistant", content := text, tempId := item_id }]
  else
    appendToFound (isAssistantItem item_id) text conversation

/-- The string `lowerContent` of lines 282-285. -/
def lowerContent (conversation : List Turn) : String :=
  join " " ((conversation.filter fun item => item.role == "assistant").map
    fun item => toLowerCase item.content)

/-- The condition of lines 287-292. -/
def mentionsResolution (lower : String) : Bool :=
  includes lower "resolved" || includes lower "issue fixed" ||
  includes lower "problem solved" || includes lower "completed successfully"

/-- The text-delta branch (lines 263-295). `none` stands for the `TypeError`
raised by `currentCallData.conversation.find` when `conversation` is undefined. -/
def contentDeltaBranch (cd : CallData) (response : Response) : Option CallData :=
  match response.delta with
  | Delta.obj type text =>
    if response.type = "response.content.delta" ∧ type = "text" then
      match cd.conversation with
      | none => none
      | some conversation =>
        let conversation1 := addDelta conversation response.item_id text
        let cd1 := { cd with conversation := some conversation1 }
        if mentionsResolution (lowerContent conversation1) then
          some { cd1 with status := "Resolved" }
        else some cd1
    else some cd
  | _ => some cd

/-! ## Outbound relay (lines 297-320) -/

/-- The audio-delta branch (lines 297-316). -/
def audioDeltaBranch (s : Session) (response : Response) : Session × Out :=
  if response.type = "response.audio.delta" ∧ response.delta.truthy then
    let audioDelta := TelnyxFrame.media s.streamId response.delta
    let s1 :=
      if !truthyNum s.responseStartTimestampTelnyx then
        { s with responseStartTimestampTelnyx := some s.latestMediaTimestamp }
      else s
    let s2 := if truthy response.item_id then { s1 with lastAssistantItem := response.item_id }
      else s1
    let (s3, o3) := sendMark s2
    (s3, Out.append ⟨[], [audioDelta], []⟩ o3)
  else (s, Out.nil)

/-- The speech-started branch (lines 318-320). -/
def speechStartedBranch (s : Session) (response : Response) : Session × Out :=
  if response.type = "input_audio_buffer.speech_started" then handleSpeechStartedEvent s
  else (s, Out.nil)

/-- The handler `openAiWs.on('message')` (lines 254-329). `data = none` is a
message `JSON.parse` rejects; every exception ends the handler in the `catch`. -/
def onOpenAiMessage (cd : CallData) (s : Session) (data : Option Response) :
    CallData × Session × Out :=
  match data with
  | none => (cd, s, Out.nil)
  | some response =>
    match contentDeltaBranch cd response with
    | none => (cd, s, Out.nil)
    | some cd1 =>
      let (s2, o2) := audioDeltaBranch s response
      let (s3, o3) := speechStartedBranch s2 response
      (cd1, s3, o2.append o3)

/-! ## Finalization (lines 64-107) -/

/-- The function `saveCallData`, up to and including the call of `fetch`: the updated
`currentCallData` and the payloads handed to the webhook. -/
def saveCallData (WEBHOOK_URL : Option String) (cd : CallData) : CallData × List Payload :=
  let cd1 :=
    match cd.conversation with
    | none => cd
    | some conversation =>
      if conversation.length > 0 then
        let summaryText : JsString :=
          JsString.ofString
            (join "\\n" (conversation.map fun item => item.role ++ ": " ++ item.content))
        { cd with notes :=
            if summaryText.length > 500 then
              substring0 summaryText 497 ++ JsString.ofString "..."
            else summaryText }
      else cd
  let dataToSend : Payload :=
    { user_id := cd1.user_id, caller_number := cd1.caller_number,
      status := cd1.status, notes := cd1.notes }
  (cd1, if truthy WEBHOOK_URL then [dataToSend] else [])

/-! ## Inbound relay (lines 332-384) -/

/-- The handler `connection.on('message')` (lines 332-377). `message = none` is a
message `JSON.parse` rejects; `aiOpen` is `openAiWs.readyState === WebSocket.OPEN`.
A missing `media` or `start` object raises a `TypeError`, caught at line 374. -/
def onTelnyxMessage (WEBHOOK_URL : Option String) (aiOpen : Bool) (cd : CallData)
    (s : Session) (message : Option Data) : CallData × Session × Out :=
  match message with
  | none => (cd, s, Out.nil)
  | some data =>
    if data.event = "media" then
      match data.media with
      | none => (cd, s, Out.nil)
      | some media =>
        (cd, { s with latestMediaTimestamp := media.timestamp },
         ⟨if aiOpen then [AiFrame.inputAudioBufferAppend media.payload] else [], [], []⟩)
    else if data.event = "start" then
      match data.start with
      | none => (cd, s, Out.nil)
      | some start =>
        let cd1 := if truthy start.callerFrom then { cd with caller_number := start.callerFrom }
          else cd
        (cd1, { s with streamId := start.streamId, responseStartTimestampTelnyx := none,
                       latestMediaTimestamp := 0 }, Out.nil)
    else if data.event = "mark" then
      if s.markQueue.length > 0 then (cd, { s with markQueue := s.markQueue.tail }, Out.nil)
      else (cd, s, Out.nil)
    else if data.event = "stop" then
      let (cd1, sent) := saveCallData WEBHOOK_URL cd
      (cd1, s, ⟨[], [], sent⟩)
    else (cd, s, Out.nil)

/-- The handler `connection.on('close')` (lines 380-384). -/
def onClose (WEBHOOK_URL : Option String) (cd : CallData) (s : Session) :
    CallData × Session × Out :=
  let (cd1, sent) := saveCallData WEBHOOK_URL cd
  (cd1, s, ⟨[], [], sent⟩)

/-! ## One connection as a state machine -/

/-- What can happen on one call-media connection. -/
inductive Event where
  | openAiMessage (data : Option Response)
  | telnyxMessage (aiOpen : Bool) (message : Option Data)
  | close
  deriving DecidableEq

/-- Dispatch of one event to its handler. -/
def step (WEBHOOK_URL : Option String) (cd : CallData) (s : Session) :
    Event → CallData × Session × Out
  | .openAiMessage data => onOpenAiMessage cd s data
  | .telnyxMessage aiOpen message => onTelnyxMessage WEBHOOK_URL aiOpen cd s message
  | .close => onClose WEBHOOK_URL cd s

/-- Handling of a sequence of events, in order, collecting everything sent. -/
def run (WEBHOOK_URL : Option String) (cd : CallData) (s : Session) :
    List Event → CallData × Session × Out
  | [] => (cd, s, Out.nil)
  | e :: es =>
    let (cd1, s1, o1) := step WEBHOOK_URL cd s e
    let (cd2, s2, o2) := run WEBHOOK_URL cd1 s1 es
    (cd2, s2, o1.append o2)

/-- The connection-specific variables as initialised at lines 143-147. -/
def Session.init : Session :=
  { streamId := none, latestMediaTimestamp := 0, lastAssistantItem := none,
    markQueue := [], responseStartTimestampTelnyx := none }

/-- The `currentCallData` installed by `/incoming-call` (lines 126-132);
`callerFrom` is `request.body?.from`. -/
def incomingCall (COMPANY_UUID callerFrom : Option String) : CallData :=
  { user_id := COMPANY_UUID,
    caller_number := if truthy callerFrom then callerFrom else some "unknown",
    status := "Unresolved", notes := "", conversation := some [] }

/-! ## Messages used in the statements -/

/-- An AI `response.audio.delta` message. -/
def audioDeltaMsg (payload : String) (item_id : Option String) : Response :=
  { type := "response.audio.delta", delta := Delta.str payload, item_id := item_id }

/-- An AI `response.content.delta` message with a textual delta. -/
def textDeltaMsg (item_id : Option String) (text : String) : Response :=
  { type := "response.content.delta", delta := Delta.obj "text" text, item_id := item_id }

/-- An AI `input_audio_buffer.speech_started` message. -/
def speechStartedMsg : Response :=
  { type := "input_audio_buffer.speech_started", delta := Delta.undefined, item_id := none }

/-- A telephony `media` message. -/
def mediaMsg (timestamp : Int) (payload : String) : Data :=
  { event := "media", media := some ⟨timestamp, payload⟩, start := none }

/-- A telephony `start` message. -/
def startMsg (streamId callerFrom : Option String) : Data :=
  { event := "start", media := none, start := some ⟨streamId, callerFrom⟩ }

/-- A telephony message that carries only an event name (`mark`, `stop`, ...). -/
def bareMsg (event : String) : Data :=
  { event := event, media := none, start := none }


/-! ## External status override (lines 398-407) -/

/-- The reply to a request to the override: the HTTP status code and the `success`
field of the reply body, `none` when the body has no such field. -/
structure Reply where
  code : Nat
  success : Option Bool
  deriving DecidableEq

/-- The handler of `POST /update-status` (lines 398-407), acting on `currentCallData`.
The argument `body` is `request.body`: `none` when the request carries no body, and
otherwise its field `status`, itself `none` when the body has no such field. On an absent
body the destructuring of line 399 throws a `TypeError` before anything is written; the
handler sends no reply of its own and the framework answers the failed request with its
error reply, code 500 and no `success` field. A `reply.send` without `code` answers 200. -/
def updateStatus (cd : CallData) (body : Option (Option String)) : CallData × Reply :=
  match body with
  | none => (cd, ⟨500, none⟩)
  | some status =>
    match status with
    | some v =>
      if v = "Resolved" ∨ v = "Unresolved" then ({ cd with status := v }, ⟨200, some true⟩)
      else (cd, ⟨400, some false⟩)
    | none => (cd, ⟨400, some false⟩)

/-! ## Two connections in one process -/

/-- The two call-media connections considered. -/
inductive Conn where
  | A
  | B
  deriving DecidableEq

/-- The state of the process while two call-media connections are open: the one
module-level `currentCallData` (line 56), and for each connection the variables its
invocation of the route handler declares (lines 143-147). -/
structure Process where
  currentCallData : CallData
  sessionA : Session
  sessionB : Session
  deriving DecidableEq

/-- One event on connection `c`: its handler runs on the variables of `c` and on the
module-level `currentCallData`. -/
def step2 (WEBHOOK_URL : Option String) (w : Process) (c : Conn) (e : Event) :
    Process × Out :=
  match c with
  | .A =>
    ({ w with
        currentCallData := (step WEBHOOK_URL w.currentCallData w.sessionA e).1,
        sessionA := (step WEBHOOK_URL w.currentCallData w.sessionA e).2.1 },
     (step WEBHOOK_URL w.currentCallData w.sessionA e).2.2)
  | .B =>
    ({ w with
        currentCallData := (step WEBHOOK_URL w.currentCallData w.sessionB e).1,
        sessionB := (step WEBHOOK_URL w.currentCallData w.sessionB e).2.1 },
     (step WEBHOOK_URL w.currentCallData w.sessionB e).2.2)

/-- An interleaved sequence of events of the two connections, in order: the process
afterwards, what connection `A` sent and what connection `B` sent. -/
def run2 (WEBHOOK_URL : Option String) (w : Process) :
    List (Conn × Event) → Process × Out × Out
  | [] => (w, Out.nil, Out.nil)
  | (Conn.A, e) :: rest =>
    ((run2 WEBHOOK_URL (step2 WEBHOOK_URL w Conn.A e).1 rest).1,
     (step2 WEBHOOK_URL w Conn.A e).2.append
       (run2 WEBHOOK_URL (step2 WEBHOOK_URL w Conn.A e).1 rest).2.1,
     (run2 WEBHOOK_URL (step2 WEBHOOK_URL w Conn.A e).1 rest).2.2)
  | (Conn.B, e) :: rest =>
    ((run2 WEBHOOK_URL (step2 WEBHOOK_URL w Conn.B e).1 rest).1,
     (run2 WEBHOOK_URL (step2 WEBHOOK_URL w Conn.B e).1 rest).2.1,
     (step2 WEBHOOK_URL w Conn.B e).2.append
       (run2 WEBHOOK_URL (step2 WEBHOOK_URL w Conn.B e).1 rest).2.2)

/-! ## Concrete states and scenarios -/

/-- A response in flight: stream `s1`, item `r1`, one pending mark, playback
clock started at 100 and the latest inbound media frame stamped 400. -/
def inFlight : Session :=
  ⟨some "s1", 400, some "r1", ["responsePart"], some 100⟩

/-- A session with nothing in flight: the queue is empty. -/
def idle : Session :=
  ⟨some "s1", 400, some "r1", [], some 100⟩

/-- A response in flight whose latest inbound media timestamp (100) lies before
the recorded start of the response (500). -/
def skewed : Session :=
  ⟨some "s1", 100, some "r1", ["responsePart"], some 500⟩

/-- Events leading to `skewed`: the stream starts, a media frame stamped 500
arrives, the AI starts a response, a media frame stamped 100 arrives, and the
caller starts speaking. -/
def skewedEvents : List Event :=
  [.telnyxMessage true (some (startMsg (some "s1") (some "+1555"))),
   .telnyxMessage true (some (mediaMsg 500 "in1")),
   .openAiMessage (some (audioDeltaMsg "out1" (some "r1"))),
   .telnyxMessage true (some (mediaMsg 100 "in2")),
   .openAiMessage (some speechStartedMsg)]

/-- Scenario A: the stream `s1` starts for caller `+1555`, then the AI sends an
audio delta for item `r1`. -/
def scenarioA : List Event :=
  [.telnyxMessage true (some (startMsg (some "s1") (some "+1555"))),
   .openAiMessage (some (audioDeltaMsg "out1" (some "r1")))]

/-- A response whose first audio delta arrived right after stream start (start
timestamp 0), with the inbound media clock now at 500. -/
def zeroStart : Session :=
  ⟨some "s1", 500, some "r1", ["responsePart"], some 0⟩

/-- Events leading to `zeroStart` and one more audio delta of the same response:
stream start, first audio delta of `r1`, a media frame stamped 500, second audio
delta of `r1`. -/
def zeroStartEvents : List Event :=
  [.telnyxMessage true (some (startMsg (some "s1") (some "+1555"))),
   .openAiMessage (some (audioDeltaMsg "out1" (some "r1"))),
   .telnyxMessage true (some (mediaMsg 500 "in1")),
   .openAiMessage (some (audioDeltaMsg "out2" (some "r1")))]

/-- A call record whose status is already `Resolved`, with one logged turn. -/
def resolvedCall : CallData :=
  { user_id := some "co", caller_number := some "+1555", status := "Resolved", notes := "",
    conversation := some [⟨"assistant", "Your issue is resolved now.", some "r2"⟩] }

/-- One event of every kind: a text delta without a resolution phrase, an audio delta,
speech started, an unparseable AI message, then telephony start, media, mark, stop, an
unknown event, an unparseable message, and the close. -/
def oneOfEach : List Event :=
  [.openAiMessage (some (textDeltaMsg (some "r3") "Anything else?")),
   .openAiMessage (some (audioDeltaMsg "out1" (some "r3"))),
   .openAiMessage (some speechStartedMsg),
   .openAiMessage none,
   .telnyxMessage true (some (startMsg (some "s2") (some "+1666"))),
   .telnyxMessage true (some (mediaMsg 20 "in1")),
   .telnyxMessage true (some (bareMsg "mark")),
   .telnyxMessage true (some (bareMsg "stop")),
   .telnyxMessage true (some (bareMsg "dtmf")),
   .telnyxMessage false none,
   .close]


/-! ## Notions used in the statements -/

/-- The events whose handler calls `saveCallData`: a parsed telephony message with
event `stop` (line 368) and the connection close (line 383). -/
def callsSaveCallData : Event → Bool
  | .telnyxMessage _ (some data) => data.event == "stop"
  | .close => true
  | _ => false

/-- A telephony `stop` message followed by the connection close. -/
def stopThenClose : List Event :=
  [.telnyxMessage true (some (bareMsg "stop")), .close]

/-- The AI messages carrying a sequence of textual content deltas
(item id, text), in order. -/
def textDeltaEvents (ds : List (Option String × String)) : List Event :=
  ds.map fun d => Event.openAiMessage (some (textDeltaMsg d.1 d.2))

/-- The concatenation, in arrival order, of the texts of the deltas in `ds` that
carry the item id `item_id`. -/
def textFor (item_id : Option String) : List (Option String × String) → String
  | [] => ""
  | d :: ds => if d.1 = item_id then d.2 ++ textFor item_id ds else textFor item_id ds

/-- The conversation after the deltas `ds` were added, one by one, to `log`. -/
def addDeltas (log : List Turn) (ds : List (Option String × String)) : List Turn :=
  ds.foldl (fun l d => addDelta l d.1 d.2) log

/-- Scenario C: two text deltas for item `r2`. -/
def scenarioC : List (Option String × String) :=
  [(some "r2", "Your issue is "), (some "r2", "resolved now.")]

/-- The reading of resolution detection by single turns: some one assistant turn of
the log has a text that contains, case-insensitively, one of the resolution phrases. -/
def someTurnMentionsResolution (log : List Turn) : Bool :=
  log.any fun item => item.role == "assistant" && mentionsResolution (toLowerCase item.content)

/-- Two text deltas for two different items; the phrase `problem solved` occurs in
neither text, only across their boundary. -/
def crossTurn : List (Option String × String) :=
  [(some "r1", "The problem"), (some "r2", "solved itself")]

/-- Whether the scan of lines 282-292 succeeds after one of the deltas `ds`, when
they are added one by one to `log`. -/
def scanSucceedsDuring (log : List Turn) : List (Option String × String) → Bool
  | [] => false
  | d :: ds =>
    mentionsResolution (lowerContent (addDelta log d.1 d.2)) ||
      scanSucceedsDuring (addDelta log d.1 d.2) ds


/-- The text of the string `summaryText` that `saveCallData` builds at lines 69-71 from
a conversation: every turn as `role: content`, joined with the separator written `'\\n'`
in the source (a backslash followed by the letter n). Its JavaScript value, with the
length that line 73 tests, is `JsString.ofString` of it. -/
def summaryText (conversation : List Turn) : String :=
  join "\\n" (conversation.map fun item => item.role ++ ": " ++ item.content)

/-- A call record with one logged assistant turn. -/
def oneTurnCall : CallData :=
  { user_id := some "co", caller_number := some "+1555", status := "Unresolved", notes := "",
    conversation := some [⟨"assistant", "Hello", some "r1"⟩] }

/-- A call record with two logged assistant turns. -/
def twoTurnCall : CallData :=
  { user_id := some "co", caller_number := some "+1555", status := "Unresolved", notes := "",
    conversation := some [⟨"assistant", "Hello", some "r1"⟩, ⟨"assistant", "Bye", some "r2"⟩] }

/-- A call record whose single turn has a text of 600 letters `a`. -/
def longCall : CallData :=
  { user_id := some "co", caller_number := some "+1555", status := "Unresolved", notes := "",
    conversation := some [⟨"assistant", ⟨List.replicate 600 'a'⟩, some "r1"⟩] }

/-- A call record whose single turn has a text of 300 characters U+1F600, each of which
is two UTF-16 code units. -/
def emojiCall : CallData :=
  { user_id := some "co", caller_number := some "+1555", status := "Unresolved", notes := "",
    conversation := some [⟨"assistant", ⟨List.replicate 300 (Char.ofNat 128512)⟩, some "r1"⟩] }

/-- A call record whose single turn is the letter `x` followed by 300 characters
U+1F600: the cut after 497 code units falls between the two halves of a surrogate
pair. -/
def splitCall : CallData :=
  { user_id := some "co", caller_number := some "+1555", status := "Unresolved", notes := "",
    conversation :=
      some [⟨"assistant", ⟨'x' :: List.replicate 300 (Char.ofNat 128512)⟩, some "r1"⟩] }

/-- The telephony messages of a sequence of well-formed media events; each comes with
the readiness of the AI connection when it is handled. -/
def mediaEvents (ms : List (Bool × Media)) : List Event :=
  ms.map fun m => Event.telnyxMessage m.1 (some (mediaMsg m.2.timestamp m.2.payload))

/-- What the media events `ms` forward to the AI relay: one append per event handled
while the AI connection is open, with the payload of the event. -/
def forwarded (ms : List (Bool × Media)) : List AiFrame :=
  ms.filterMap fun m => if m.1 then some (AiFrame.inputAudioBufferAppend m.2.payload) else none

/-- Three media events with timestamps out of order; the AI connection is closed for
the second. -/
def threeMedia : List (Bool × Media) :=
  [(true, ⟨40, "in1"⟩), (false, ⟨20, "in2"⟩), (true, ⟨30, "in3"⟩)]

/-- The timestamp of the last of the media events `ms`, or `t` when there is none. -/
def lastTimestamp (t : Int) : List (Bool × Media) → Int
  | [] => t
  | m :: rest => lastTimestamp m.2.timestamp rest

/-- The item ids of the deltas `ds` in the order of their first occurrence, after the
ids `seen` that occurred before. -/
def firstIds (seen : List (Option String)) :
    List (Option String × String) → List (Option String)
  | [] => seen
  | d :: ds => if d.1 ∈ seen then firstIds seen ds else firstIds (seen ++ [d.1]) ds

/-- Text deltas for the items `r1`, `r2`, `r1`, `r3`, `r2`, interleaved. -/
def interleaved : List (Option String × String) :=
  [(some "r1", "Hel"), (some "r2", "Good"), (some "r1", "lo"), (some "r3", "Hi"),
   (some "r2", "bye")]

/-! ### Counting frames and acknowledgments -/

/-- Counts kept along a run since the last interruption reset or drain of the queue:
media frames sent to telephony, those of them tagged with a known stream id, `mark`
messages received, and those of them received while the queue was non-empty. -/
structure Tally where
  audioFrames : Nat
  knownAudioFrames : Nat
  acks : Nat
  appliedAcks : Nat
  deriving DecidableEq

/-- All counts at zero. -/
def Tally.zero : Tally := ⟨0, 0, 0, 0⟩

/-- A `clear` frame; `handleSpeechStartedEvent` sends one exactly when it resets. -/
def isClear : TelnyxFrame → Bool
  | .clear _ => true
  | _ => false

/-- A media frame. -/
def isMedia : TelnyxFrame → Bool
  | .media _ _ => true
  | _ => false

/-- A media frame tagged with a known stream id. -/
def isKnownMedia : TelnyxFrame → Bool
  | .media streamId _ => truthy streamId
  | _ => false

/-- A parsed telephony message with event `mark`. -/
def isMarkMessage : Event → Bool
  | .telnyxMessage _ (some data) => data.event == "mark"
  | _ => false

/-- The counts after one event: `before` and `after` are the sessions around it and `o`
is what its handler sent. An interruption reset (a `clear` was sent) and a drain (a `mark`
message emptied a non-empty queue) restart the counts. -/
def Tally.update (t : Tally) (before after : Session) (e : Event) (o : Out) : Tally :=
  if o.toTelnyx.any isClear then Tally.zero
  else if isMarkMessage e && !before.markQueue.isEmpty && after.markQueue.isEmpty then Tally.zero
  else
    { audioFrames := t.audioFrames + o.toTelnyx.countP isMedia,
      knownAudioFrames := t.knownAudioFrames + o.toTelnyx.countP isKnownMedia,
      acks := t.acks + (if isMarkMessage e then 1 else 0),
      appliedAcks := t.appliedAcks +
        (if isMarkMessage e && !before.markQueue.isEmpty then 1 else 0) }

/-- The session and the counts after a sequence of events. -/
def tallyRun (WEBHOOK_URL : Option String) (cd : CallData) (s : Session) (t : Tally) :
    List Event → Session × Tally
  | [] => (s, t)
  | e :: es =>
    tallyRun WEBHOOK_URL (step WEBHOOK_URL cd s e).1 (step WEBHOOK_URL cd s e).2.1
      (t.update s (step WEBHOOK_URL cd s e).2.1 e (step WEBHOOK_URL cd s e).2.2) es

/-- An audio delta that arrives before the stream has started. -/
def earlyAudio : List Event :=
  [.openAiMessage (some (audioDeltaMsg "out1" (some "r1")))]

/-- A `mark` message that arrives while the queue is empty. -/
def strayMark : List Event :=
  [.telnyxMessage true (some (bareMsg "mark"))]

/-- A call with two audio deltas, one acknowledgment, an interruption, and one more
audio delta. -/
def busyCall : List Event :=
  [.telnyxMessage true (some (startMsg (some "s1") (some "+1555"))),
   .telnyxMessage true (some (mediaMsg 20 "in1")),
   .openAiMessage (some (audioDeltaMsg "out1" (some "r1"))),
   .openAiMessage (some (audioDeltaMsg "out2" (some "r1"))),
   .telnyxMessage true (some (bareMsg "mark")),
   .openAiMessage (some speechStartedMsg),
   .openAiMessage (some (audioDeltaMsg "out3" (some "r2")))]

/-! ### Two connections -/

/-- The events of connection `c` in an interleaved sequence, in order. -/
def eventsOf (c : Conn) (evs : List (Conn × Event)) : List Event :=
  (evs.filter fun ce => ce.1 == c).map fun ce => ce.2

/-- Two fresh connections and the call record installed for caller `+1555`. -/
def twoCalls : Process :=
  ⟨incomingCall (some "co") (some "+1555"), Session.init, Session.init⟩

/-- Connection `A` starts a stream from `+1999` and receives a text delta, then
connection `B` receives the telephony `stop`. -/
def crossTalk : List (Conn × Event) :=
  [(Conn.A, .telnyxMessage true (some (startMsg (some "sA") (some "+1999")))),
   (Conn.A, .openAiMessage (some (textDeltaMsg (some "r1") "All resolved"))),
   (Conn.B, .telnyxMessage true (some (bareMsg "stop")))]

/-! ## Interruption handler: lemmas -/

theorem handleSpeechStartedEvent_inFlight (s : Session) (hq : s.markQueue ≠ [])
    (hr : s.responseStartTimestampTelnyx ≠ none) :
    handleSpeechStartedEvent s =
      ({ s with markQueue := [], lastAssistantItem := none,
                responseStartTimestampTelnyx := none },
       ⟨match s.lastAssistantItem with
        | some item =>
          if item != "" then
            [AiFrame.conversationItemTruncate item 0
              (s.latestMediaTimestamp - toNumber s.responseStartTimestampTelnyx)]
          else []
        | none => [],
        [TelnyxFrame.clear s.streamId], []⟩) := by
  have hlen : s.markQueue.length > 0 := List.length_pos.mpr hq
  simp [handleSpeechStartedEvent, hlen, hr]

theorem handleSpeechStartedEvent_idle (s : Session)
    (h : ¬ (s.markQueue ≠ [] ∧ s.responseStartTimestampTelnyx ≠ none)) :
    handleSpeechStartedEvent s = (s, Out.nil) := by
  have h2 : ¬ (s.markQueue.length > 0 ∧ s.responseStartTimestampTelnyx ≠ none) := by
    intro hc
    exact h ⟨List.length_pos.mp hc.1, hc.2⟩
  simp only [handleSpeechStartedEvent, if_neg h2]

theorem onOpenAiMessage_speechStarted (cd : CallData) (s : Session) :
    onOpenAiMessage cd s (some speechStartedMsg) =
      (cd, (handleSpeechStartedEvent s).1, (handleSpeechStartedEvent s).2) := by
  simp [onOpenAiMessage, contentDeltaBranch, audioDeltaBranch, speechStartedBranch,
    speechStartedMsg, Out.append, Out.nil]

/-! ## Claims -/

/-- C1: state effect of the interruption handler. When `markQueue` is non-empty and
`responseStartTimestampTelnyx` is non-null, `handleSpeechStartedEvent` leaves
`markQueue` empty, `lastAssistantItem` null and `responseStartTimestampTelnyx` null,
with `streamId` and `latestMediaTimestamp` unchanged; in every other state the
session is unchanged and nothing is sent to the AI relay or to telephony. The
speech-started message reaches exactly this handler and leaves the call data alone. -/
theorem C1_interruption_state_effect (cd : CallData) (s : Session) :
    (s.markQueue ≠ [] ∧ s.responseStartTimestampTelnyx ≠ none →
      (handleSpeechStartedEvent s).1.markQueue = [] ∧
      (handleSpeechStartedEvent s).1.lastAssistantItem = none ∧
      (handleSpeechStartedEvent s).1.responseStartTimestampTelnyx = none ∧
      (handleSpeechStartedEvent s).1.streamId = s.streamId ∧
      (handleSpeechStartedEvent s).1.latestMediaTimestamp = s.latestMediaTimestamp) ∧
    (¬ (s.markQueue ≠ [] ∧ s.responseStartTimestampTelnyx ≠ none) →
      (handleSpeechStartedEvent s).1 = s ∧
      (handleSpeechStartedEvent s).2.toAi = [] ∧
      (handleSpeechStartedEvent s).2.toTelnyx = []) ∧
    onOpenAiMessage cd s (some speechStartedMsg) =
      (cd, (handleSpeechStartedEvent s).1, (handleSpeechStartedEvent s).2) := by
  refine ⟨?_, ?_, onOpenAiMessage_speechStarted cd s⟩
  · rintro ⟨hq, hr⟩
    rw [handleSpeechStartedEvent_inFlight s hq hr]
    exact ⟨rfl, rfl, rfl, rfl, rfl⟩
  · intro h
    rw [handleSpeechStartedEvent_idle s h]
    exact ⟨rfl, rfl, rfl⟩

/-- Witness for C1: the in-flight state `inFlight` is reset, the state `idle`
(empty queue) is left alone. -/
theorem C1_interruption_state_effect_witness :
    ((handleSpeechStartedEvent inFlight).1.markQueue = [] ∧
      (handleSpeechStartedEvent inFlight).1.lastAssistantItem = none ∧
      (handleSpeechStartedEvent inFlight).1.responseStartTimestampTelnyx = none ∧
      (handleSpeechStartedEvent inFlight).1.streamId = some "s1" ∧
      (handleSpeechStartedEvent inFlight).1.latestMediaTimestamp = 400) ∧
    ((handleSpeechStartedEvent idle).1 = idle ∧
      (handleSpeechStartedEvent idle).2.toAi = [] ∧
      (handleSpeechStartedEvent idle).2.toTelnyx = []) :=
  ⟨(C1_interruption_state_effect (incomingCall none none) inFlight).1 (by decide),
   (C1_interruption_state_effect (incomingCall none none) idle).2.1 (by decide)⟩

/-- C2 as stated fails: in the state `skewed` (response in flight, item `r1` set,
latest media timestamp 100 before the response start 500) the truncate instruction
carries `audio_end_ms = -400`, which is neither `0` nor `≥ 0`; the state is reached
from the initial one by the events `skewedEvents`. -/
theorem C2_counterexample :
    skewed.markQueue ≠ [] ∧ skewed.responseStartTimestampTelnyx = some 500 ∧
    skewed.lastAssistantItem = some "r1" ∧ skewed.latestMediaTimestamp < 500 ∧
    (handleSpeechStartedEvent skewed).2.toAi =
      [AiFrame.conversationItemTruncate "r1" 0 (-400)] ∧
    (run none (incomingCall none none) Session.init skewedEvents).2.2.toAi =
      [AiFrame.inputAudioBufferAppend "in1", AiFrame.inputAudioBufferAppend "in2",
       AiFrame.conversationItemTruncate "r1" 0 (-400)] := by
  decide

/-- C2 (amended): with a response in flight and `lastAssistantItem` set, the value
sent as `audio_end_ms` is exactly `latestMediaTimestamp - responseStartTimestampTelnyx`,
without clamping: it is `≥ 0` when `latestMediaTimestamp ≥ responseStartTimestampTelnyx`
and negative when `latestMediaTimestamp < responseStartTimestampTelnyx`. -/
theorem C2_elapsed_is_plain_difference (s : Session) (item : String) (r : Int)
    (hq : s.markQueue ≠ []) (hr : s.responseStartTimestampTelnyx = some r)
    (hi : s.lastAssistantItem = some item) (hne : item ≠ "") :
    ∃ elapsed : Int,
      (handleSpeechStartedEvent s).2.toAi =
        [AiFrame.conversationItemTruncate item 0 elapsed] ∧
      elapsed = s.latestMediaTimestamp - r ∧
      (r ≤ s.latestMediaTimestamp → 0 ≤ elapsed) ∧
      (s.latestMediaTimestamp < r → elapsed < 0) := by
  refine ⟨s.latestMediaTimestamp - r, ?_, rfl, ?_, ?_⟩
  · rw [handleSpeechStartedEvent_inFlight s hq (by simp [hr])]
    simp [hi, hne, hr, toNumber]
  · intro h; omega
  · intro h; omega

/-- Witness for the amended C2 at the state `skewed`. -/
theorem C2_elapsed_is_plain_difference_witness :
    ∃ elapsed : Int,
      (handleSpeechStartedEvent skewed).2.toAi =
        [AiFrame.conversationItemTruncate "r1" 0 elapsed] ∧
      elapsed = skewed.latestMediaTimestamp - 500 ∧
      ((500 : Int) ≤ skewed.latestMediaTimestamp → 0 ≤ elapsed) ∧
      (skewed.latestMediaTimestamp < 500 → elapsed < 0) :=
  C2_elapsed_is_plain_difference skewed "r1" 500 (by decide) rfl rfl (by decide)

/-- C3: messages of an in-flight interruption. With `markQueue` non-empty,
`responseStartTimestampTelnyx = r` and `latestMediaTimestamp ≥ r`, the handler sends
to the AI relay exactly one `conversation.item.truncate` naming `lastAssistantItem`,
with `content_index` 0 and `audio_end_ms = latestMediaTimestamp - r`, when
`lastAssistantItem` is set, and nothing when it is not; and it sends to telephony
exactly one `clear` frame naming the current `streamId`. -/
theorem C3_interruption_messages (s : Session) (r : Int)
    (hq : s.markQueue ≠ []) (hr : s.responseStartTimestampTelnyx = some r)
    (_hle : r ≤ s.latestMediaTimestamp) :
    (∀ item, s.lastAssistantItem = some item → item ≠ "" →
      (handleSpeechStartedEvent s).2.toAi =
        [AiFrame.conversationItemTruncate item 0 (s.latestMediaTimestamp - r)]) ∧
    (truthy s.lastAssistantItem = false → (handleSpeechStartedEvent s).2.toAi = []) ∧
    (handleSpeechStartedEvent s).2.toTelnyx = [TelnyxFrame.clear s.streamId] := by
  rw [handleSpeechStartedEvent_inFlight s hq (by simp [hr])]
  refine ⟨?_, ?_, rfl⟩
  · intro item hi hne
    simp [hi, hne, hr, toNumber]
  · intro hf
    cases hl : s.lastAssistantItem with
    | none => rfl
    | some item =>
      have : item = "" := by simpa [truthy, hl] using hf
      simp [this]

/-- Witness for C3: `latestMediaTimestamp = 400`, `responseStartTimestampTelnyx = 100`,
item `r1`, stream `s1` give a truncate of `r1` at 300 ms and a clear on `s1`. -/
theorem C3_interruption_messages_witness :
    (handleSpeechStartedEvent inFlight).2.toAi =
      [AiFrame.conversationItemTruncate "r1" 0 300] ∧
    (handleSpeechStartedEvent inFlight).2.toTelnyx = [TelnyxFrame.clear (some "s1")] :=
  ⟨(C3_interruption_messages inFlight 100 (by decide) rfl (by decide)).1 "r1" rfl
      (by decide),
   (C3_interruption_messages inFlight 100 (by decide) rfl (by decide)).2.2⟩

/-! ## Outbound relay: lemmas -/

theorem onOpenAiMessage_audioDelta (cd : CallData) (s : Session) (payload : String)
    (item_id : Option String) :
    onOpenAiMessage cd s (some (audioDeltaMsg payload item_id)) =
      (cd, (audioDeltaBranch s (audioDeltaMsg payload item_id)).1,
        (audioDeltaBranch s (audioDeltaMsg payload item_id)).2) := by
  simp [onOpenAiMessage, contentDeltaBranch, speechStartedBranch, audioDeltaMsg,
    Out.append, Out.nil]

theorem audioDeltaBranch_sent (s : Session) (payload : String) (item_id : Option String)
    (hp : payload ≠ "") :
    audioDeltaBranch s (audioDeltaMsg payload item_id) =
      ((sendMark
          { s with
            responseStartTimestampTelnyx :=
              if truthyNum s.responseStartTimestampTelnyx then s.responseStartTimestampTelnyx
              else some s.latestMediaTimestamp,
            lastAssistantItem :=
              if truthy item_id then item_id else s.lastAssistantItem }).1,
       Out.append ⟨[], [TelnyxFrame.media s.streamId (Delta.str payload)], []⟩
        (sendMark
          { s with
            responseStartTimestampTelnyx :=
              if truthyNum s.responseStartTimestampTelnyx then s.responseStartTimestampTelnyx
              else some s.latestMediaTimestamp,
            lastAssistantItem :=
              if truthy item_id then item_id else s.lastAssistantItem }).2) := by
  unfold audioDeltaBranch
  by_cases h1 : truthyNum s.responseStartTimestampTelnyx = true <;>
  by_cases h2 : truthy item_id = true <;>
  simp [audioDeltaMsg, Delta.truthy, hp, h1, h2]

/-! ## Claims on the outbound relay -/

/-- C4: with a known stream id (`streamId = sid`, non-empty, the test of `sendMark`) and
an audio delta with non-empty payload, the handler sends to telephony exactly one media
frame with that payload on `sid` followed by exactly one mark frame on `sid`, appends one
entry `responsePart` at the back of `markQueue`, and sets `lastAssistantItem` to the
item id of the event when it carries one, leaving it unchanged otherwise. From a fresh
stream `s1`, a delta for `r1` gives `markQueue = [responsePart]`, a start timestamp and
`lastAssistantItem = r1`, with one media frame on `s1`. -/
theorem C4_audio_delta_enqueues_one_mark (cd : CallData) (s : Session) (sid payload : String)
    (item_id : Option String) (hs : s.streamId = some sid) (hsid : sid ≠ "")
    (hp : payload ≠ "") :
    ((onOpenAiMessage cd s (some (audioDeltaMsg payload item_id))).2.2.toTelnyx =
        [TelnyxFrame.media (some sid) (Delta.str payload),
         TelnyxFrame.mark sid "responsePart"] ∧
      (onOpenAiMessage cd s (some (audioDeltaMsg payload item_id))).2.1.markQueue =
        s.markQueue ++ ["responsePart"] ∧
      (onOpenAiMessage cd s (some (audioDeltaMsg payload item_id))).2.1.markQueue.length =
        s.markQueue.length + 1 ∧
      (∀ item, item_id = some item → item ≠ "" →
        (onOpenAiMessage cd s (some (audioDeltaMsg payload item_id))).2.1.lastAssistantItem =
          some item) ∧
      (truthy item_id = false →
        (onOpenAiMessage cd s (some (audioDeltaMsg payload item_id))).2.1.lastAssistantItem =
          s.lastAssistantItem) ∧
      (onOpenAiMessage cd s (some (audioDeltaMsg payload item_id))).2.1.streamId =
        some sid) ∧
    ((run none (incomingCall none (some "+1555")) Session.init scenarioA).2.1 =
        ⟨some "s1", 0, some "r1", ["responsePart"], some 0⟩ ∧
      (run none (incomingCall none (some "+1555")) Session.init scenarioA).2.2.toTelnyx =
        [TelnyxFrame.media (some "s1") (Delta.str "out1"),
         TelnyxFrame.mark "s1" "responsePart"]) := by
  refine ⟨?_, by decide⟩
  rw [onOpenAiMessage_audioDelta, audioDeltaBranch_sent s payload item_id hp]
  refine ⟨?_, ?_, ?_, ?_, ?_, ?_⟩
  · simp [sendMark, hs, hsid, Out.append]
  · simp [sendMark, hs, hsid]
  · simp [sendMark, hs, hsid]
  · intro item hi hne
    simp [sendMark, hs, hsid, hi, truthy, hne]
  · intro hf
    simp [sendMark, hs, hsid, hf]
  · simp [sendMark, hs, hsid]

/-- Witness for C4: the session `idle` (stream `s1`, empty queue) and a delta `out1`
for item `r2`. -/
theorem C4_audio_delta_enqueues_one_mark_witness :
    (onOpenAiMessage (incomingCall none none) idle
        (some (audioDeltaMsg "out1" (some "r2")))).2.2.toTelnyx =
      [TelnyxFrame.media (some "s1") (Delta.str "out1"),
       TelnyxFrame.mark "s1" "responsePart"] ∧
    (onOpenAiMessage (incomingCall none none) idle
        (some (audioDeltaMsg "out1" (some "r2")))).2.1.markQueue = ["responsePart"] ∧
    (onOpenAiMessage (incomingCall none none) idle
        (some (audioDeltaMsg "out1" (some "r2")))).2.1.lastAssistantItem = some "r2" :=
  have h := (C4_audio_delta_enqueues_one_mark (incomingCall none none) idle "s1" "out1"
    (some "r2") rfl (by decide) (by decide)).1
  ⟨h.1, h.2.1, h.2.2.2.1 "r2" rfl (by decide)⟩

/-- C5 fails on the code at start timestamp 0: in the state `zeroStart`
(`responseStartTimestampTelnyx = 0`, non-null, `latestMediaTimestamp = 500`) a further
audio delta of the same response moves `responseStartTimestampTelnyx` to 500. The state
arises from the initial one: after stream start and the first delta the start timestamp
is 0, and after a media frame stamped 500 the second delta of the same item resets it. -/
theorem C5_zero_start_is_overwritten :
    zeroStart.responseStartTimestampTelnyx = some 0 ∧
    (onOpenAiMessage (incomingCall none none) zeroStart
        (some (audioDeltaMsg "out2" (some "r1")))).2.1.responseStartTimestampTelnyx =
      some 500 ∧
    (run none (incomingCall none none) Session.init
        (zeroStartEvents.take 3)).2.1 = zeroStart ∧
    (run none (incomingCall none none) Session.init
        zeroStartEvents).2.1.responseStartTimestampTelnyx = some 500 := by
  decide

/-- C6 as stated fails: with `streamId` null (the initial session) an audio delta
`out1` still sends a media frame to telephony, tagged with the null stream id. -/
theorem C6_counterexample :
    Session.init.streamId = none ∧
    (onOpenAiMessage (incomingCall none none) Session.init
        (some (audioDeltaMsg "out1" (some "r1")))).2.2.toTelnyx =
      [TelnyxFrame.media none (Delta.str "out1")] := by
  decide

/-- C6 (amended): with `streamId` null, an audio-delta event drops the mark only: no
mark frame is sent and `markQueue` is unchanged, while the media frame is still sent,
tagged with the null stream id, whenever the payload is non-empty (nothing at all is
sent for an empty payload). -/
theorem C6_unknown_stream_drops_mark_only (cd : CallData) (s : Session) (payload : String)
    (item_id : Option String) (hs : s.streamId = none) :
    (onOpenAiMessage cd s (some (audioDeltaMsg payload item_id))).2.1.markQueue =
      s.markQueue ∧
    (∀ sid name, TelnyxFrame.mark sid name ∉
      (onOpenAiMessage cd s (some (audioDeltaMsg payload item_id))).2.2.toTelnyx) ∧
    (payload ≠ "" →
      (onOpenAiMessage cd s (some (audioDeltaMsg payload item_id))).2.2.toTelnyx =
        [TelnyxFrame.media none (Delta.str payload)]) ∧
    (payload = "" →
      (onOpenAiMessage cd s (some (audioDeltaMsg payload item_id))).2.2.toTelnyx = []) := by
  rw [onOpenAiMessage_audioDelta]
  by_cases hp : payload = ""
  · subst hp
    simp [audioDeltaBranch, audioDeltaMsg, Delta.truthy, Out.nil]
  · rw [audioDeltaBranch_sent s payload item_id hp]
    simp [sendMark, hs, Out.append, Out.nil, hp]

/-- Witness for the amended C6 at the initial session. -/
theorem C6_unknown_stream_drops_mark_only_witness :
    (onOpenAiMessage (incomingCall none none) Session.init
        (some (audioDeltaMsg "out1" (some "r1")))).2.1.markQueue = [] ∧
    (onOpenAiMessage (incomingCall none none) Session.init
        (some (audioDeltaMsg "out1" (some "r1")))).2.2.toTelnyx =
      [TelnyxFrame.media none (Delta.str "out1")] :=
  have h := C6_unknown_stream_drops_mark_only (incomingCall none none) Session.init "out1"
    (some "r1") rfl
  ⟨h.1, h.2.2.1 (by decide)⟩

/-! ## Finalization: lemmas -/

theorem saveCallData_webhook_length (url : Option String) (cd : CallData) :
    (saveCallData url cd).2.length = if truthy url then 1 else 0 := by
  unfold saveCallData
  by_cases h : truthy url = true <;> simp [h]

theorem sendMark_webhook (s : Session) : (sendMark s).2.webhook = [] := by
  unfold sendMark
  split
  · split <;> rfl
  · rfl

theorem handleSpeechStartedEvent_webhook (s : Session) :
    (handleSpeechStartedEvent s).2.webhook = [] := by
  unfold handleSpeechStartedEvent
  split <;> rfl

theorem audioDeltaBranch_webhook (s : Session) (response : Response) :
    (audioDeltaBranch s response).2.webhook = [] := by
  unfold audioDeltaBranch
  split
  · simp [Out.append, sendMark_webhook]
  · rfl

theorem speechStartedBranch_webhook (s : Session) (response : Response) :
    (speechStartedBranch s response).2.webhook = [] := by
  unfold speechStartedBranch
  split
  · exact handleSpeechStartedEvent_webhook s
  · rfl

theorem onOpenAiMessage_webhook (cd : CallData) (s : Session) (data : Option Response) :
    (onOpenAiMessage cd s data).2.2.webhook = [] := by
  cases data with
  | none => rfl
  | some response =>
    cases h : contentDeltaBranch cd response with
    | none => simp [onOpenAiMessage, h, Out.nil]
    | some cd1 =>
      simp [onOpenAiMessage, h, Out.append, audioDeltaBranch_webhook,
        speechStartedBranch_webhook]

theorem step_webhook_length (url : Option String) (cd : CallData) (s : Session)
    (e : Event) :
    (step url cd s e).2.2.webhook.length =
      if truthy url ∧ callsSaveCallData e then 1 else 0 := by
  cases e with
  | openAiMessage data => simp [step, onOpenAiMessage_webhook, callsSaveCallData]
  | close => simp [step, onClose, saveCallData_webhook_length, callsSaveCallData]
  | telnyxMessage aiOpen message =>
    cases message with
    | none => simp [step, onTelnyxMessage, callsSaveCallData, Out.nil]
    | some data =>
      by_cases h4 : data.event = "stop"
      · have h1 : data.event ≠ "media" := by rw [h4]; decide
        have h2 : data.event ≠ "start" := by rw [h4]; decide
        have h3 : data.event ≠ "mark" := by rw [h4]; decide
        simp [step, onTelnyxMessage, h1, h2, h3, h4, callsSaveCallData,
          saveCallData_webhook_length]
      · simp only [step, onTelnyxMessage, callsSaveCallData, h4]
        split
        · split <;> simp [Out.nil, h4]
        · split
          · split <;> simp [Out.nil, h4]
          · split
            · split <;> simp [Out.nil, h4]
            · simp [Out.nil, h4]

theorem run_webhook_length (url : Option String) (evs : List Event) :
    ∀ (cd : CallData) (s : Session),
      (run url cd s evs).2.2.webhook.length =
        if truthy url then evs.countP callsSaveCallData else 0 := by
  induction evs with
  | nil => intro cd s; simp [run, Out.nil]
  | cons e es ih =>
    intro cd s
    have hstep := step_webhook_length url cd s e
    simp only [run, Out.append, List.length_append, ih, hstep, List.countP_cons]
    by_cases hu : truthy url = true <;> by_cases he : callsSaveCallData e = true <;>
      simp [hu, he, Nat.add_comm]

/-! ## Claims on finalization -/

/-- C7 as stated fails: with a webhook URL configured, a `stop` message followed by the
connection close hands the call record to the webhook twice (the same payload both
times). -/
theorem C7_counterexample :
    (run (some "https://hook") (incomingCall (some "co") (some "+1555")) Session.init
        stopThenClose).2.2.webhook =
      [⟨some "co", some "+1555", "Unresolved", ""⟩,
       ⟨some "co", some "+1555", "Unresolved", ""⟩] := by
  decide

/-- C7 (amended): finalization is not guarded. With a webhook URL configured, every
sequence of events hands the call record to the webhook exactly once per `stop` message
and once per connection close, so a `stop` followed by the close sends two summaries;
without a webhook URL nothing is handed over. -/
theorem C7_one_delivery_per_trigger (url : Option String) (cd : CallData) (s : Session)
    (evs : List Event) :
    (truthy url = true →
      (run url cd s evs).2.2.webhook.length = evs.countP callsSaveCallData) ∧
    (truthy url = true → (run url cd s stopThenClose).2.2.webhook.length = 2) ∧
    (truthy url = false → (run url cd s evs).2.2.webhook = []) := by
  refine ⟨?_, ?_, ?_⟩
  · intro hu
    rw [run_webhook_length, if_pos hu]
  · intro hu
    rw [run_webhook_length, if_pos hu]
    decide
  · intro hu
    have h := run_webhook_length url evs cd s
    simp [hu] at h
    exact h

/-- Witness for the amended C7: with a URL, `stop` then close deliver twice; without
one, nothing is delivered. -/
theorem C7_one_delivery_per_trigger_witness :
    (run (some "https://hook") (incomingCall none none) Session.init
        stopThenClose).2.2.webhook.length = 2 ∧
    (run none (incomingCall none none) Session.init stopThenClose).2.2.webhook = [] :=
  ⟨(C7_one_delivery_per_trigger (some "https://hook") (incomingCall none none)
      Session.init stopThenClose).2.1 (by decide),
   (C7_one_delivery_per_trigger none (incomingCall none none)
      Session.init stopThenClose).2.2 (by decide)⟩

/-! ## Transcript aggregation: lemmas -/

theorem isAssistantItem_content (item_id : Option String) (item : Turn) (c : String) :
    isAssistantItem item_id { item with content := c } = isAssistantItem item_id item := rfl

theorem isAssistantItem_iff (item_id : Option String) (item : Turn) :
    isAssistantItem item_id item = true ↔ item.role = "assistant" ∧ item.tempId = item_id := by
  simp [isAssistantItem]

theorem appendToFound_filter_same (item_id : Option String) (text : String)
    (log : List Turn) :
    (appendToFound (isAssistantItem item_id) text log).filter (isAssistantItem item_id) =
      match log.filter (isAssistantItem item_id) with
      | [] => []
      | x :: xs => { x with content := x.content ++ text } :: xs := by
  induction log with
  | nil => rfl
  | cons item rest ih =>
    by_cases h : isAssistantItem item_id item = true
    · simp [appendToFound, h, List.filter_cons, isAssistantItem_content]
    · simp [appendToFound, h, List.filter_cons, ih]

theorem appendToFound_filter_other (item_id other : Option String) (hne : other ≠ item_id)
    (text : String) (log : List Turn) :
    (appendToFound (isAssistantItem item_id) text log).filter (isAssistantItem other) =
      log.filter (isAssistantItem other) := by
  induction log with
  | nil => rfl
  | cons item rest ih =>
    by_cases h : isAssistantItem item_id item = true
    · have ho : isAssistantItem other item = false := by
        rw [isAssistantItem_iff] at h
        cases hb : isAssistantItem other item with
        | false => rfl
        | true =>
          rw [isAssistantItem_iff] at hb
          exact absurd (hb.2.symm.trans h.2) hne
      simp [appendToFound, h, List.filter_cons, isAssistantItem_content, ho]
    · simp [appendToFound, h, List.filter_cons, ih]

theorem find_isSome_iff_filter (item_id : Option String) (log : List Turn) :
    (log.find? (isAssistantItem item_id)).isSome = true ↔
      log.filter (isAssistantItem item_id) ≠ [] := by
  rw [List.find?_isSome, Ne, List.filter_eq_nil_iff]
  push_neg
  rfl

theorem addDelta_filter_new (item_id : Option String) (text : String) (log : List Turn)
    (h : log.filter (isAssistantItem item_id) = []) :
    (addDelta log item_id text).filter (isAssistantItem item_id) =
      [⟨"assistant", text, item_id⟩] := by
  have hf : (log.find? (isAssistantItem item_id)).isSome = false := by
    cases hb : (log.find? (isAssistantItem item_id)).isSome with
    | false => rfl
    | true => exact absurd h ((find_isSome_iff_filter item_id log).mp hb)
  simp [addDelta, hf, List.filter_append, h, isAssistantItem]

theorem addDelta_filter_old (item_id : Option String) (text c : String) (log : List Turn)
    (h : log.filter (isAssistantItem item_id) = [⟨"assistant", c, item_id⟩]) :
    (addDelta log item_id text).filter (isAssistantItem item_id) =
      [⟨"assistant", c ++ text, item_id⟩] := by
  have hf : (log.find? (isAssistantItem item_id)).isSome = true :=
    (find_isSome_iff_filter item_id log).mpr (by simp [h])
  simp [addDelta, hf, appendToFound_filter_same, h]

theorem addDelta_filter_other (item_id other : Option String) (hne : other ≠ item_id)
    (text : String) (log : List Turn) :
    (addDelta log item_id text).filter (isAssistantItem other) =
      log.filter (isAssistantItem other) := by
  unfold addDelta
  split
  · have : isAssistantItem other ⟨"assistant", text, item_id⟩ = false := by
      cases hb : isAssistantItem other ⟨"assistant", text, item_id⟩ with
      | false => rfl
      | true =>
        rw [isAssistantItem_iff] at hb
        exact absurd hb.2.symm hne
    simp [List.filter_append, this]
  · exact appendToFound_filter_other item_id other hne text log

theorem addDeltas_filter_old (item_id : Option String) (ds : List (Option String × String)) :
    ∀ (log : List Turn) (c : String),
      log.filter (isAssistantItem item_id) = [⟨"assistant", c, item_id⟩] →
      (addDeltas log ds).filter (isAssistantItem item_id) =
        [⟨"assistant", c ++ textFor item_id ds, item_id⟩] := by
  induction ds with
  | nil => intro log c h; simpa [addDeltas, textFor] using h
  | cons d ds ih =>
    intro log c h
    by_cases hd : d.1 = item_id
    · have h1 := addDelta_filter_old item_id d.2 c log h
      have h2 := ih (addDelta log item_id d.2) (c ++ d.2) h1
      simp only [addDeltas, List.foldl_cons, textFor, hd, if_true] at h2 ⊢
      rw [h2, String.append_assoc]
    · have h1 : (addDelta log d.1 d.2).filter (isAssistantItem item_id) =
          [⟨"assistant", c, item_id⟩] := by
        rw [addDelta_filter_other d.1 item_id (fun e => hd e.symm)]; exact h
      have h2 := ih (addDelta log d.1 d.2) c h1
      simp only [addDeltas, List.foldl_cons, textFor, hd, if_false] at h2 ⊢
      exact h2

theorem addDeltas_filter_new (item_id : Option String) (ds : List (Option String × String)) :
    ∀ (log : List Turn), log.filter (isAssistantItem item_id) = [] →
      (∃ d ∈ ds, d.1 = item_id) →
      (addDeltas log ds).filter (isAssistantItem item_id) =
        [⟨"assistant", textFor item_id ds, item_id⟩] := by
  induction ds with
  | nil => intro log _ hex; simp at hex
  | cons d ds ih =>
    intro log h hex
    by_cases hd : d.1 = item_id
    · have h1 := addDelta_filter_new item_id d.2 log h
      have h2 := addDeltas_filter_old item_id ds (addDelta log item_id d.2) d.2 h1
      simp only [addDeltas, List.foldl_cons, textFor, hd, if_true] at h2 ⊢
      exact h2
    · have h1 : (addDelta log d.1 d.2).filter (isAssistantItem item_id) = [] := by
        rw [addDelta_filter_other d.1 item_id (fun e => hd e.symm)]; exact h
      have hex2 : ∃ d2 ∈ ds, d2.1 = item_id := by
        obtain ⟨d2, hm, he⟩ := hex
        rcases List.mem_cons.mp hm with rfl | hm
        · exact absurd he hd
        · exact ⟨d2, hm, he⟩
      have h2 := ih (addDelta log d.1 d.2) h1 hex2
      simp only [addDeltas, List.foldl_cons, textFor, hd, if_false] at h2 ⊢
      exact h2

theorem contentDeltaBranch_textDelta (cd : CallData) (log : List Turn)
    (hc : cd.conversation = some log) (item_id : Option String) (text : String) :
    contentDeltaBranch cd (textDeltaMsg item_id text) =
      some { cd with
        conversation := some (addDelta log item_id text),
        status :=
          if mentionsResolution (lowerContent (addDelta log item_id text)) then "Resolved"
          else cd.status } := by
  by_cases h : mentionsResolution (lowerContent (addDelta log item_id text)) = true <;>
    simp [contentDeltaBranch, textDeltaMsg, hc, h]

theorem onOpenAiMessage_textDelta (cd : CallData) (s : Session) (log : List Turn)
    (hc : cd.conversation = some log) (item_id : Option String) (text : String) :
    onOpenAiMessage cd s (some (textDeltaMsg item_id text)) =
      ({ cd with
          conversation := some (addDelta log item_id text),
          status :=
            if mentionsResolution (lowerContent (addDelta log item_id text)) then "Resolved"
            else cd.status }, s, Out.nil) := by
  simp only [onOpenAiMessage, contentDeltaBranch_textDelta cd log hc]
  simp [audioDeltaBranch, speechStartedBranch, textDeltaMsg, Out.append, Out.nil]

theorem run_textDeltaEvents_conversation (url : Option String)
    (ds : List (Option String × String)) :
    ∀ (cd : CallData) (s : Session) (log : List Turn), cd.conversation = some log →
      (run url cd s (textDeltaEvents ds)).1.conversation = some (addDeltas log ds) := by
  induction ds with
  | nil => intro cd s log hc; simpa [run, textDeltaEvents, addDeltas] using hc
  | cons d ds ih =>
    intro cd s log hc
    have h := ih { cd with
        conversation := some (addDelta log d.1 d.2),
        status :=
          if mentionsResolution (lowerContent (addDelta log d.1 d.2)) then "Resolved"
          else cd.status } s (addDelta log d.1 d.2) rfl
    simp only [textDeltaEvents, List.map_cons, run, step,
      onOpenAiMessage_textDelta cd s log hc, addDeltas, List.foldl_cons] at h ⊢
    exact h

/-! ## Claims on the transcript -/

/-- C8: transcript accumulation. Starting from an empty conversation log, after any
sequence of textual content deltas (item ids interleaved at will) the log holds, for each
item id that occurred, exactly one assistant turn with that id, and its text is the
concatenation, in arrival order, of all delta texts received for that id. -/
theorem C8_transcript_accumulation (url : Option String) (cd : CallData) (s : Session)
    (ds : List (Option String × String)) (hc : cd.conversation = some []) :
    ∃ log, (run url cd s (textDeltaEvents ds)).1.conversation = some log ∧
      ∀ d ∈ ds, log.filter (isAssistantItem d.1) = [⟨"assistant", textFor d.1 ds, d.1⟩] := by
  refine ⟨addDeltas [] ds, run_textDeltaEvents_conversation url ds cd s [] hc, ?_⟩
  intro d hd
  exact addDeltas_filter_new d.1 ds [] rfl ⟨d, hd, rfl⟩

/-- Witness for C8: the deltas `Your issue is ` and `resolved now.` for `r2` give the
single turn `Your issue is resolved now.`. -/
theorem C8_transcript_accumulation_witness :
    (∃ log, (run none (incomingCall none none) Session.init
        (textDeltaEvents scenarioC)).1.conversation = some log ∧
      ∀ d ∈ scenarioC, log.filter (isAssistantItem d.1) =
        [⟨"assistant", textFor d.1 scenarioC, d.1⟩]) ∧
    (run none (incomingCall none none) Session.init
        (textDeltaEvents scenarioC)).1.conversation =
      some [⟨"assistant", "Your issue is resolved now.", some "r2"⟩] ∧
    textFor (some "r2") scenarioC = "Your issue is resolved now." :=
  ⟨C8_transcript_accumulation none (incomingCall none none) Session.init scenarioC rfl,
   by decide, by decide⟩

/-! ## Resolution detection: lemmas -/

theorem run_textDeltaEvents_status (url : Option String)
    (ds : List (Option String × String)) :
    ∀ (cd : CallData) (s : Session) (log : List Turn), cd.conversation = some log →
      (run url cd s (textDeltaEvents ds)).1.status =
        if scanSucceedsDuring log ds then "Resolved" else cd.status := by
  induction ds with
  | nil => intro cd s log _; simp [run, textDeltaEvents, scanSucceedsDuring]
  | cons d ds ih =>
    intro cd s log hc
    have h := ih { cd with
        conversation := some (addDelta log d.1 d.2),
        status :=
          if mentionsResolution (lowerContent (addDelta log d.1 d.2)) then "Resolved"
          else cd.status } s (addDelta log d.1 d.2) rfl
    simp only [textDeltaEvents, List.map_cons, run, step,
      onOpenAiMessage_textDelta cd s log hc] at h ⊢
    rw [h]
    by_cases h1 : mentionsResolution (lowerContent (addDelta log d.1 d.2)) = true <;>
      by_cases h2 : scanSucceedsDuring (addDelta log d.1 d.2) ds = true <;>
      simp [scanSucceedsDuring, h1, h2]

theorem scanSucceedsDuring_iff (ds : List (Option String × String)) :
    ∀ log : List Turn, scanSucceedsDuring log ds = true ↔
      ∃ n, 0 < n ∧ n ≤ ds.length ∧
        mentionsResolution (lowerContent (addDeltas log (ds.take n))) = true := by
  induction ds with
  | nil =>
    intro log
    simp only [scanSucceedsDuring, List.length_nil]
    constructor
    · intro h; exact absurd h (by decide)
    · rintro ⟨n, h1, h2, _⟩; omega
  | cons d ds ih =>
    intro log
    simp only [scanSucceedsDuring, Bool.or_eq_true, ih]
    constructor
    · rintro (h | ⟨n, h1, h2, h3⟩)
      · exact ⟨1, by omega, by simp, by simpa [addDeltas] using h⟩
      · exact ⟨n + 1, by omega, by simp; omega, by simpa [addDeltas] using h3⟩
    · rintro ⟨n, h1, h2, h3⟩
      obtain ⟨m, rfl⟩ : ∃ m, n = m + 1 := ⟨n - 1, by omega⟩
      cases m with
      | zero => left; simpa [addDeltas] using h3
      | succ k =>
        right
        exact ⟨k + 1, by omega, by simp at h2; omega, by simpa [addDeltas] using h3⟩

theorem data_infix_join (sep x : String) (parts : List String) (hx : x ∈ parts) :
    x.data <:+: (join sep parts).data := by
  induction parts with
  | nil => simp at hx
  | cons a rest ih =>
    cases rest with
    | nil =>
      have : x = a := by simpa using hx
      subst this
      exact List.infix_refl _
    | cons b rest2 =>
      simp only [join, String.data_append]
      rcases List.mem_cons.mp hx with rfl | hm
      · exact ⟨[], sep.data ++ (join sep (b :: rest2)).data, by simp⟩
      · exact List.IsInfix.trans (ih hm)
          ⟨a.data ++ sep.data, [], by simp⟩

theorem includes_mono (a b p : String) (hab : a.data <:+: b.data)
    (h : includes a p = true) : includes b p = true := by
  simp only [includes, decide_eq_true_eq] at h ⊢
  exact h.trans hab

theorem mentionsResolution_mono (a b : String) (hab : a.data <:+: b.data)
    (h : mentionsResolution a = true) : mentionsResolution b = true := by
  simp only [mentionsResolution, Bool.or_eq_true] at h ⊢
  rcases h with ((h | h) | h) | h
  · exact Or.inl (Or.inl (Or.inl (includes_mono a b _ hab h)))
  · exact Or.inl (Or.inl (Or.inr (includes_mono a b _ hab h)))
  · exact Or.inl (Or.inr (includes_mono a b _ hab h))
  · exact Or.inr (includes_mono a b _ hab h)

theorem mentionsResolution_of_someTurn (log : List Turn)
    (h : someTurnMentionsResolution log = true) :
    mentionsResolution (lowerContent log) = true := by
  simp only [someTurnMentionsResolution, List.any_eq_true, Bool.and_eq_true] at h
  obtain ⟨item, hmem, hrole, hm⟩ := h
  refine mentionsResolution_mono (toLowerCase item.content) _ ?_ hm
  apply data_infix_join
  exact List.mem_map.mpr ⟨item, List.mem_filter.mpr ⟨hmem, hrole⟩, rfl⟩

/-! ## Claims on resolution detection -/

/-- C9 as stated fails: after the deltas `The problem` (item `r1`) and `solved itself`
(item `r2`) the status is `Resolved`, although after neither delta does any single
assistant turn contain a resolution phrase: `problem solved` arises only across the
boundary of the two turns. -/
theorem C9_counterexample :
    (run none (incomingCall none none) Session.init
        (textDeltaEvents crossTurn)).1.status = "Resolved" ∧
    (run none (incomingCall none none) Session.init
        (textDeltaEvents (crossTurn.take 1))).1.conversation =
      some [⟨"assistant", "The problem", some "r1"⟩] ∧
    (run none (incomingCall none none) Session.init
        (textDeltaEvents crossTurn)).1.conversation =
      some [⟨"assistant", "The problem", some "r1"⟩,
            ⟨"assistant", "solved itself", some "r2"⟩] ∧
    someTurnMentionsResolution [⟨"assistant", "The problem", some "r1"⟩] = false ∧
    someTurnMentionsResolution
      [⟨"assistant", "The problem", some "r1"⟩,
       ⟨"assistant", "solved itself", some "r2"⟩] = false := by
  decide

/-- C9 (amended): from a fresh call record (status `Unresolved`, empty log), after any
sequence of textual content deltas the status is `Resolved` if and only if, after some
delta, the lower-cased texts of all assistant turns joined by single spaces contained
one of the four phrases. A phrase inside a single turn always counts; a phrase that
arises across the boundary of two turns counts as well. -/
theorem C9_resolution_follows_joined_scan (url : Option String) (cd : CallData)
    (s : Session) (ds : List (Option String × String))
    (hc : cd.conversation = some []) (hs : cd.status = "Unresolved") :
    ((run url cd s (textDeltaEvents ds)).1.status = "Resolved" ↔
      ∃ n log, 0 < n ∧ n ≤ ds.length ∧
        (run url cd s (textDeltaEvents (ds.take n))).1.conversation = some log ∧
        mentionsResolution (lowerContent log) = true) ∧
    ((∃ n log, 0 < n ∧ n ≤ ds.length ∧
        (run url cd s (textDeltaEvents (ds.take n))).1.conversation = some log ∧
        someTurnMentionsResolution log = true) →
      (run url cd s (textDeltaEvents ds)).1.status = "Resolved") := by
  have hiff : (run url cd s (textDeltaEvents ds)).1.status = "Resolved" ↔
      ∃ n log, 0 < n ∧ n ≤ ds.length ∧
        (run url cd s (textDeltaEvents (ds.take n))).1.conversation = some log ∧
        mentionsResolution (lowerContent log) = true := by
    rw [run_textDeltaEvents_status url ds cd s [] hc, hs]
    constructor
    · intro h
      have hscan : scanSucceedsDuring [] ds = true := by
        by_contra hn
        rw [if_neg hn] at h
        exact absurd h (by decide)
      obtain ⟨n, h1, h2, h3⟩ := (scanSucceedsDuring_iff ds []).mp hscan
      exact ⟨n, _, h1, h2, run_textDeltaEvents_conversation url (ds.take n) cd s [] hc, h3⟩
    · rintro ⟨n, log, h1, h2, h3, h4⟩
      rw [run_textDeltaEvents_conversation url (ds.take n) cd s [] hc] at h3
      cases h3
      rw [if_pos ((scanSucceedsDuring_iff ds []).mpr ⟨n, h1, h2, h4⟩)]
  refine ⟨hiff, ?_⟩
  rintro ⟨n, log, h1, h2, h3, h4⟩
  exact hiff.mpr ⟨n, log, h1, h2, h3, mentionsResolution_of_someTurn log h4⟩

/-- Witness for the amended C9: scenario C (`Your issue is `, `resolved now.` for `r2`)
ends `Resolved`, the joined scan succeeding after the second delta. -/
theorem C9_resolution_follows_joined_scan_witness :
    (run none (incomingCall none none) Session.init
        (textDeltaEvents scenarioC)).1.status = "Resolved" :=
  (C9_resolution_follows_joined_scan none (incomingCall none none) Session.init scenarioC
      rfl rfl).1.mpr
    ⟨2, [⟨"assistant", "Your issue is resolved now.", some "r2"⟩], by decide, by decide,
      by decide, by decide⟩

/-! ## Status: lemmas -/

theorem contentDeltaBranch_status (cd cd1 : CallData) (response : Response)
    (h : contentDeltaBranch cd response = some cd1) :
    cd1.status = "Resolved" ∨ cd1.status = cd.status := by
  unfold contentDeltaBranch at h
  split at h
  · split at h
    · split at h
      · exact absurd h (by simp)
      · simp only at h
        split at h <;> (cases h; simp)
    · cases h; exact Or.inr rfl
  · cases h; exact Or.inr rfl

theorem onOpenAiMessage_status (cd : CallData) (s : Session) (data : Option Response) :
    (onOpenAiMessage cd s data).1.status = "Resolved" ∨
      (onOpenAiMessage cd s data).1.status = cd.status := by
  cases data with
  | none => exact Or.inr rfl
  | some response =>
    cases h : contentDeltaBranch cd response with
    | none => simp [onOpenAiMessage, h]
    | some cd1 =>
      simpa [onOpenAiMessage, h] using contentDeltaBranch_status cd cd1 response h

theorem saveCallData_status (url : Option String) (cd : CallData) :
    (saveCallData url cd).1.status = cd.status := by
  unfold saveCallData
  cases cd.conversation with
  | none => rfl
  | some conversation =>
    by_cases h : conversation.length > 0 <;> simp [h]

theorem onTelnyxMessage_status (url : Option String) (aiOpen : Bool) (cd : CallData)
    (s : Session) (message : Option Data) :
    (onTelnyxMessage url aiOpen cd s message).1.status = cd.status := by
  cases message with
  | none => rfl
  | some data =>
    simp only [onTelnyxMessage]
    split
    · split <;> rfl
    · split
      · split
        · rfl
        · split <;> rfl
      · split
        · split <;> rfl
        · split
          · exact saveCallData_status url cd
          · rfl

theorem step_status (url : Option String) (cd : CallData) (s : Session) (e : Event) :
    (step url cd s e).1.status = "Resolved" ∨ (step url cd s e).1.status = cd.status := by
  cases e with
  | openAiMessage data => exact onOpenAiMessage_status cd s data
  | telnyxMessage aiOpen message =>
    exact Or.inr (onTelnyxMessage_status url aiOpen cd s message)
  | close => exact Or.inr (saveCallData_status url cd)

theorem run_status_resolved (url : Option String) (evs : List Event) :
    ∀ (cd : CallData) (s : Session), cd.status = "Resolved" →
      (run url cd s evs).1.status = "Resolved" := by
  induction evs with
  | nil => intro cd s h; exact h
  | cons e es ih =>
    intro cd s h
    have h1 : (step url cd s e).1.status = "Resolved" := by
      rcases step_status url cd s e with h2 | h2
      · exact h2
      · rw [h2, h]
    exact ih (step url cd s e).1 (step url cd s e).2.1 h1

/-! ## Claim on the status -/

/-- C10: the status never reverts automatically. From a call record with status
`Resolved`, every AI relay message and every telephony message (media, start, mark,
stop, any other event name, unparseable input), and the connection close, leave the
status `Resolved`; so does every sequence of such events. -/
theorem C10_resolved_is_kept (url : Option String) (cd : CallData) (s : Session)
    (hres : cd.status = "Resolved") :
    (∀ data, (onOpenAiMessage cd s data).1.status = "Resolved") ∧
    (∀ aiOpen message, (onTelnyxMessage url aiOpen cd s message).1.status = "Resolved") ∧
    (onClose url cd s).1.status = "Resolved" ∧
    (∀ evs, (run url cd s evs).1.status = "Resolved") := by
  refine ⟨?_, ?_, ?_, ?_⟩
  · intro data
    rcases onOpenAiMessage_status cd s data with h | h
    · exact h
    · rw [h, hres]
  · intro aiOpen message
    rw [onTelnyxMessage_status, hres]
  · exact (saveCallData_status url cd).trans hres
  · intro evs
    exact run_status_resolved url evs cd s hres

/-- Witness for C10: from `resolvedCall`, one event of every kind leaves the status
`Resolved`. -/
theorem C10_resolved_is_kept_witness :
    (run (some "https://hook") resolvedCall inFlight oneOfEach).1.status = "Resolved" :=
  (C10_resolved_is_kept (some "https://hook") resolvedCall inFlight rfl).2.2.2 oneOfEach

/-! ## Notes at finalization: lemmas -/

theorem saveCallData_notes (url : Option String) (cd : CallData) (log : List Turn)
    (hc : cd.conversation = some log) (hne : log ≠ []) :
    (saveCallData url cd).1.notes =
      if (JsString.ofString (summaryText log)).length > 500 then
        substring0 (JsString.ofString (summaryText log)) 497 ++ JsString.ofString "..."
      else JsString.ofString (summaryText log) := by
  have hlen : log.length > 0 := List.length_pos.mpr hne
  simp only [saveCallData, hc, hlen, if_true, summaryText]

theorem JsString.length_append (a b : JsString) : (a ++ b).length = a.length + b.length := by
  show (a.data ++ b.data).length = a.data.length + b.data.length
  exact List.length_append _ _

theorem substring0_length (s : JsString) (n : Nat) (h : n ≤ s.length) :
    (substring0 s n).length = n := by
  simp only [substring0, JsString.length, List.length_take]
  exact Nat.min_eq_left h

theorem utf16Units_length_pos (c : Char) : 1 ≤ (utf16Units c).length := by
  unfold utf16Units
  split <;> simp

theorem flatMap_utf16Units_length_ge (cs : List Char) :
    cs.length ≤ (cs.flatMap utf16Units).length := by
  induction cs with
  | nil => simp
  | cons c rest ih =>
    have h := utf16Units_length_pos c
    simp only [List.flatMap_cons, List.length_append, List.length_cons]
    omega

theorem ofString_length_ge (s : String) : s.length ≤ (JsString.ofString s).length :=
  flatMap_utf16Units_length_ge s.data

theorem join_length_ge (sep a : String) (rest : List String) :
    a.length ≤ (join sep (a :: rest)).length := by
  cases rest with
  | nil => simp [join]
  | cons b rest2 =>
    simp only [join, String.length_append]
    omega

theorem summaryText_length_ge (log : List Turn) (hne : log ≠ []) :
    2 ≤ (summaryText log).length := by
  cases log with
  | nil => exact absurd rfl hne
  | cons item rest =>
    have h := join_length_ge "\\n" (item.role ++ ": " ++ item.content)
      (rest.map fun item => item.role ++ ": " ++ item.content)
    have h2 : (": " : String).length = 2 := by decide
    simp only [summaryText, List.map_cons]
    simp only [String.length_append, h2] at h
    omega

theorem ofString_summaryText_length_ge (log : List Turn) (hne : log ≠ []) :
    2 ≤ (JsString.ofString (summaryText log)).length :=
  Nat.le_trans (summaryText_length_ge log hne) (ofString_length_ge _)

/-! ## Claims on finalization of the notes -/

/-- C11: notes truncation at finalization. For a non-empty conversation log with joined
summary string `S` (the JavaScript value of `summaryText log`, measured in UTF-16 code
units as `length` does), `saveCallData` sets `notes` to `S` itself when `length S ≤ 500`
and otherwise to the first 497 code units of `S` followed by `...`; so `notes` never
exceeds 500 code units and differs from `S` only when `S` is longer than 500. -/
theorem C11_notes_truncation (url : Option String) (cd : CallData) (log : List Turn)
    (hc : cd.conversation = some log) (hne : log ≠ []) :
    ((JsString.ofString (summaryText log)).length ≤ 500 →
      (saveCallData url cd).1.notes = JsString.ofString (summaryText log)) ∧
    (500 < (JsString.ofString (summaryText log)).length →
      (saveCallData url cd).1.notes =
        substring0 (JsString.ofString (summaryText log)) 497 ++ JsString.ofString "..." ∧
      (saveCallData url cd).1.notes.data =
        (JsString.ofString (summaryText log)).data.take 497 ++ [46, 46, 46] ∧
      (saveCallData url cd).1.notes.length = 500) ∧
    (saveCallData url cd).1.notes.length ≤ 500 ∧
    ((saveCallData url cd).1.notes ≠ JsString.ofString (summaryText log) →
      500 < (JsString.ofString (summaryText log)).length) := by
  rw [saveCallData_notes url cd log hc hne]
  have h3 : (JsString.ofString "...").length = 3 := by decide
  by_cases h : (JsString.ofString (summaryText log)).length > 500
  · have hl : (substring0 (JsString.ofString (summaryText log)) 497 ++
        JsString.ofString "...").length = 500 := by
      rw [JsString.length_append, substring0_length _ _ (by omega), h3]
    rw [if_pos h]
    refine ⟨fun h5 => absurd h5 (by omega), fun _ => ⟨rfl, rfl, hl⟩, by omega, fun _ => h⟩
  · rw [if_neg h]
    exact ⟨fun _ => rfl, fun h5 => absurd h5 h, by omega, fun h5 => absurd rfl h5⟩

/-- Witness for C11. The one-turn log of `oneTurnCall` has the summary
`assistant: Hello` (16 code units), which becomes the notes unchanged. The summary of
`longCall` (611 letters) and the summary of `emojiCall` (311 characters, 611 code units)
are both cut to 497 code units and `...`, 500 in all. In `splitCall` the cut leaves the
high surrogate 55357 of a pair as the last unit before the dots. -/
theorem C11_notes_truncation_witness :
    (saveCallData none oneTurnCall).1.notes =
      JsString.ofString (summaryText [⟨"assistant", "Hello", some "r1"⟩]) ∧
    (saveCallData none oneTurnCall).1.notes = "assistant: Hello" ∧
    (saveCallData none longCall).1.notes.length = 500 ∧
    (summaryText [⟨"assistant", ⟨List.replicate 300 (Char.ofNat 128512)⟩,
      some "r1"⟩]).length = 311 ∧
    (saveCallData none emojiCall).1.notes.length = 500 ∧
    (saveCallData none emojiCall).1.notes.data =
      (JsString.ofString (summaryText [⟨"assistant",
        ⟨List.replicate 300 (Char.ofNat 128512)⟩, some "r1"⟩])).data.take 497 ++
        [46, 46, 46] ∧
    (saveCallData none splitCall).1.notes.length = 500 ∧
    (saveCallData none splitCall).1.notes.data.drop 495 = [56832, 55357, 46, 46, 46] :=
  ⟨(C11_notes_truncation none oneTurnCall [⟨"assistant", "Hello", some "r1"⟩] rfl
      (by decide)).1 (by decide),
   by decide,
   ((C11_notes_truncation none longCall
      [⟨"assistant", ⟨List.replicate 600 'a'⟩, some "r1"⟩] rfl (List.cons_ne_nil _ _)).2.1
        (by set_option maxRecDepth 100000 in decide)).2.2,
   by set_option maxRecDepth 100000 in decide,
   ((C11_notes_truncation none emojiCall
      [⟨"assistant", ⟨List.replicate 300 (Char.ofNat 128512)⟩, some "r1"⟩] rfl
        (List.cons_ne_nil _ _)).2.1 (by set_option maxRecDepth 100000 in decide)).2.2,
   ((C11_notes_truncation none emojiCall
      [⟨"assistant", ⟨List.replicate 300 (Char.ofNat 128512)⟩, some "r1"⟩] rfl
        (List.cons_ne_nil _ _)).2.1 (by set_option maxRecDepth 100000 in decide)).2.1,
   ((C11_notes_truncation none splitCall
      [⟨"assistant", ⟨'x' :: List.replicate 300 (Char.ofNat 128512)⟩, some "r1"⟩] rfl
        (List.cons_ne_nil _ _)).2.1 (by set_option maxRecDepth 100000 in decide)).2.2,
   by set_option maxRecDepth 100000 in decide⟩

/-- C12 fails on the code: for the two-turn log of `twoTurnCall` the summary, and the
notes made from it, separate the two turns by a backslash followed by the letter `n`
(two characters), and contain no line-break character at all. -/
theorem C12_separator_is_backslash_n :
    summaryText [⟨"assistant", "Hello", some "r1"⟩, ⟨"assistant", "Bye", some "r2"⟩] =
      "assistant: Hello" ++ "\\n" ++ "assistant: Bye" ∧
    ("\\n" : String).data = ['\\', 'n'] ∧
    (saveCallData none twoTurnCall).1.notes = "assistant: Hello\\nassistant: Bye" ∧
    '\n'.toNat ∉ (saveCallData none twoTurnCall).1.notes.data ∧
    (saveCallData none twoTurnCall).1.notes ≠ "assistant: Hello\nassistant: Bye" := by
  decide

/-- C13: the exported record. Whatever `saveCallData` hands to the webhook is the
finalized record without its conversation: user id, caller number and status as in the
call record, and the notes just computed; with a webhook URL configured exactly this one
payload is handed over. After a `stop` message on a call with at least one logged turn
the notes of the payload are non-empty. -/
theorem C13_exported_record (url : Option String) (cd : CallData) :
    (∀ p ∈ (saveCallData url cd).2,
      p.user_id = (saveCallData url cd).1.user_id ∧
      p.caller_number = (saveCallData url cd).1.caller_number ∧
      p.status = (saveCallData url cd).1.status ∧
      p.notes = (saveCallData url cd).1.notes) ∧
    ((saveCallData url cd).1.user_id = cd.user_id ∧
      (saveCallData url cd).1.caller_number = cd.caller_number ∧
      (saveCallData url cd).1.status = cd.status ∧
      (saveCallData url cd).1.conversation = cd.conversation) ∧
    (truthy url = true →
      (saveCallData url cd).2 =
        [⟨cd.user_id, cd.caller_number, cd.status, (saveCallData url cd).1.notes⟩]) ∧
    (∀ log s aiOpen data, cd.conversation = some log → log ≠ [] → data.event = "stop" →
      (∀ p ∈ (onTelnyxMessage url aiOpen cd s (some data)).2.2.webhook, p.notes ≠ "") ∧
      (truthy url = true →
        (onTelnyxMessage url aiOpen cd s (some data)).2.2.webhook.length = 1)) := by
  have hfields : (saveCallData url cd).1.user_id = cd.user_id ∧
      (saveCallData url cd).1.caller_number = cd.caller_number ∧
      (saveCallData url cd).1.status = cd.status ∧
      (saveCallData url cd).1.conversation = cd.conversation := by
    unfold saveCallData
    cases hc : cd.conversation with
    | none => simp [hc]
    | some conversation => by_cases h : conversation.length > 0 <;> simp [h, hc]
  have hpay : (saveCallData url cd).2 =
      if truthy url then
        [⟨(saveCallData url cd).1.user_id, (saveCallData url cd).1.caller_number,
          (saveCallData url cd).1.status, (saveCallData url cd).1.notes⟩]
      else [] := rfl
  refine ⟨?_, hfields, ?_, ?_⟩
  · intro p hp
    rw [hpay] at hp
    by_cases hu : truthy url = true
    · rw [if_pos hu] at hp
      have : p = _ := List.mem_singleton.mp hp
      subst this
      exact ⟨rfl, rfl, rfl, rfl⟩
    · rw [if_neg hu] at hp
      exact absurd hp (List.not_mem_nil p)
  · intro hu
    rw [hpay, if_pos hu, hfields.1, hfields.2.1, hfields.2.2.1]
  · intro log s aiOpen data hc hne hstop
    have h1 : data.event ≠ "media" := by rw [hstop]; decide
    have h2 : data.event ≠ "start" := by rw [hstop]; decide
    have h3 : data.event ≠ "mark" := by rw [hstop]; decide
    have hw : (onTelnyxMessage url aiOpen cd s (some data)).2.2.webhook =
        (saveCallData url cd).2 := by
      simp [onTelnyxMessage, h1, h2, h3, hstop]
    rw [hw]
    refine ⟨?_, ?_⟩
    · intro p hp
      rw [hpay] at hp
      by_cases hu : truthy url = true
      · rw [if_pos hu] at hp
        have : p = _ := List.mem_singleton.mp hp
        subst this
        show (saveCallData url cd).1.notes ≠ JsString.ofString ""
        intro hempty
        have hlen : (saveCallData url cd).1.notes.length = 0 := by rw [hempty]; rfl
        have h2le := ofString_summaryText_length_ge log hne
        have h3 : (JsString.ofString "...").length = 3 := by decide
        rw [saveCallData_notes url cd log hc hne] at hlen
        by_cases h : (JsString.ofString (summaryText log)).length > 500
        · rw [if_pos h, JsString.length_append, substring0_length _ _ (by omega), h3] at hlen
          omega
        · rw [if_neg h] at hlen
          omega
      · rw [if_neg hu] at hp
        exact absurd hp (List.not_mem_nil p)
    · intro hu
      rw [hpay, if_pos hu]
      rfl

/-- Witness for C13: a `stop` message on `oneTurnCall` with a webhook URL hands over one
payload, with the fields of the record and the notes `assistant: Hello`. -/
theorem C13_exported_record_witness :
    (onTelnyxMessage (some "https://hook") true oneTurnCall Session.init
        (some (bareMsg "stop"))).2.2.webhook.length = 1 ∧
    (onTelnyxMessage (some "https://hook") true oneTurnCall Session.init
        (some (bareMsg "stop"))).2.2.webhook =
      [⟨some "co", some "+1555", "Unresolved", "assistant: Hello"⟩] :=
  ⟨((C13_exported_record (some "https://hook") oneTurnCall).2.2.2
      [⟨"assistant", "Hello", some "r1"⟩] Session.init true (bareMsg "stop") rfl
      (by decide) rfl).2 (by decide),
   by decide⟩

/-! ## Inbound relay: lemmas -/

theorem onTelnyxMessage_mark (url : Option String) (aiOpen : Bool) (cd : CallData)
    (s : Session) (data : Data) (hm : data.event = "mark") :
    onTelnyxMessage url aiOpen cd s (some data) =
      (cd, { s with markQueue := s.markQueue.tail }, Out.nil) := by
  have h1 : data.event ≠ "media" := by rw [hm]; decide
  have h2 : data.event ≠ "start" := by rw [hm]; decide
  obtain ⟨sid, latest, item, queue, started⟩ := s
  cases queue with
  | nil => simp [onTelnyxMessage, h1, h2, hm, Out.nil]
  | cons m rest => simp [onTelnyxMessage, h1, h2, hm, Out.nil]

theorem onTelnyxMessage_media (url : Option String) (aiOpen : Bool) (cd : CallData)
    (s : Session) (timestamp : Int) (payload : String) :
    onTelnyxMessage url aiOpen cd s (some (mediaMsg timestamp payload)) =
      (cd, { s with latestMediaTimestamp := timestamp },
       ⟨if aiOpen then [AiFrame.inputAudioBufferAppend payload] else [], [], []⟩) := by
  simp [onTelnyxMessage, mediaMsg]

theorem run_mediaEvents (url : Option String) (ms : List (Bool × Media)) :
    ∀ (cd : CallData) (s : Session),
      run url cd s (mediaEvents ms) =
        (cd, { s with latestMediaTimestamp := lastTimestamp s.latestMediaTimestamp ms },
         ⟨forwarded ms, [], []⟩) := by
  induction ms with
  | nil => intro cd s; rfl
  | cons m rest ih =>
    intro cd s
    simp only [mediaEvents, List.map_cons, run, step, onTelnyxMessage_media]
    have h := ih cd { s with latestMediaTimestamp := m.2.timestamp }
    simp only [mediaEvents] at h
    rw [h]
    cases hb : m.1 <;> simp [forwarded, Out.append, hb, List.filterMap_cons, lastTimestamp]

theorem lastTimestamp_eq_getLast (ms : List (Bool × Media)) :
    ∀ (t : Int) (hne : ms ≠ []), lastTimestamp t ms = (ms.getLast hne).2.timestamp := by
  induction ms with
  | nil => intro t hne; exact absurd rfl hne
  | cons m rest ih =>
    intro t hne
    cases rest with
    | nil => rfl
    | cons m2 rest2 =>
      rw [lastTimestamp, ih m.2.timestamp (List.cons_ne_nil _ _)]
      simp [List.getLast_cons]

/-! ## Claims on the inbound relay -/

/-- C14: mark acknowledgment. A telephony `mark` message removes exactly the front entry
of `markQueue` when the queue is non-empty, keeping the rest in order, and changes
nothing (and raises nothing) when the queue is empty; the other session variables and the
call record are unchanged and nothing is sent. -/
theorem C14_mark_acknowledgment (url : Option String) (aiOpen : Bool) (cd : CallData)
    (s : Session) (data : Data) (hm : data.event = "mark") :
    (∀ m rest, s.markQueue = m :: rest →
      (onTelnyxMessage url aiOpen cd s (some data)).2.1.markQueue = rest) ∧
    (s.markQueue = [] → (onTelnyxMessage url aiOpen cd s (some data)).2.1 = s) ∧
    (onTelnyxMessage url aiOpen cd s (some data)).2.1 =
      { s with markQueue := s.markQueue.tail } ∧
    (onTelnyxMessage url aiOpen cd s (some data)).1 = cd ∧
    (onTelnyxMessage url aiOpen cd s (some data)).2.2 = ⟨[], [], []⟩ := by
  rw [onTelnyxMessage_mark url aiOpen cd s data hm]
  refine ⟨?_, ?_, rfl, rfl, rfl⟩
  · intro m rest hq
    simp [hq]
  · intro hq
    cases s
    simp_all

/-- Witness for C14: a mark on a queue of two entries leaves the second one; a mark on
the empty queue of `idle` changes nothing. -/
theorem C14_mark_acknowledgment_witness :
    (onTelnyxMessage none true oneTurnCall ⟨some "s1", 0, none, ["a", "b"], none⟩
        (some (bareMsg "mark"))).2.1.markQueue = ["b"] ∧
    (onTelnyxMessage none true oneTurnCall idle (some (bareMsg "mark"))).2.1 = idle :=
  ⟨(C14_mark_acknowledgment none true oneTurnCall ⟨some "s1", 0, none, ["a", "b"], none⟩
      (bareMsg "mark") rfl).1 "a" ["b"] rfl,
   (C14_mark_acknowledgment none true oneTurnCall idle (bareMsg "mark") rfl).2.1 rfl⟩

/-- C15: for every non-empty sequence of well-formed media events, in any order of
timestamps and whether the AI connection is open or not, `latestMediaTimestamp` ends as
the timestamp of the last event; each event handled while the AI connection is open
forwards exactly one `input_audio_buffer.append` with the payload of the event, and an
event handled while it is not open forwards nothing. -/
theorem C15_latest_media_timestamp (url : Option String) (cd : CallData) (s : Session)
    (ms : List (Bool × Media)) (hne : ms ≠ []) :
    (run url cd s (mediaEvents ms)).2.1.latestMediaTimestamp = (ms.getLast hne).2.timestamp ∧
    (run url cd s (mediaEvents ms)).2.2.toAi = forwarded ms ∧
    (∀ aiOpen timestamp payload,
      (onTelnyxMessage url aiOpen cd s (some (mediaMsg timestamp payload))).2.2.toAi =
        if aiOpen then [AiFrame.inputAudioBufferAppend payload] else []) := by
  rw [run_mediaEvents]
  refine ⟨lastTimestamp_eq_getLast ms s.latestMediaTimestamp hne, rfl, ?_⟩
  · intro aiOpen timestamp payload
    rw [onTelnyxMessage_media]

/-- Witness for C15: the timestamps 40, 20, 30 end at 30; the first and third payloads
are forwarded, the second (AI connection not open) is not. -/
theorem C15_latest_media_timestamp_witness :
    (run none oneTurnCall inFlight (mediaEvents threeMedia)).2.1.latestMediaTimestamp = 30 ∧
    (run none oneTurnCall inFlight (mediaEvents threeMedia)).2.2.toAi =
      [AiFrame.inputAudioBufferAppend "in1", AiFrame.inputAudioBufferAppend "in3"] :=
  ⟨(C15_latest_media_timestamp none oneTurnCall inFlight threeMedia (by decide)).1,
   (C15_latest_media_timestamp none oneTurnCall inFlight threeMedia (by decide)).2.1⟩

/-- C16: a telephony `start` message carrying the stream id `sid` and the caller number
`n` (non-empty, the test of line 353) leaves `streamId = sid`, the caller number of the
call record `n`, `responseStartTimestampTelnyx` null and `latestMediaTimestamp` 0,
whatever they were before. -/
theorem C16_start_event (url : Option String) (aiOpen : Bool) (cd : CallData) (s : Session)
    (data : Data) (sid : Option String) (n : String) (he : data.event = "start")
    (hs : data.start = some ⟨sid, some n⟩) (hn : n ≠ "") :
    (onTelnyxMessage url aiOpen cd s (some data)).2.1.streamId = sid ∧
    (onTelnyxMessage url aiOpen cd s (some data)).1.caller_number = some n ∧
    (onTelnyxMessage url aiOpen cd s (some data)).2.1.responseStartTimestampTelnyx = none ∧
    (onTelnyxMessage url aiOpen cd s (some data)).2.1.latestMediaTimestamp = 0 := by
  have h1 : data.event ≠ "media" := by rw [he]; decide
  simp [onTelnyxMessage, h1, he, hs, truthy, hn]

/-- Witness for C16: a start of stream `s2` from `+1666` on the session `inFlight`
(stream `s1`, clock at 400, response started at 100). -/
theorem C16_start_event_witness :
    (onTelnyxMessage none true oneTurnCall inFlight
        (some (startMsg (some "s2") (some "+1666")))).2.1.streamId = some "s2" ∧
    (onTelnyxMessage none true oneTurnCall inFlight
        (some (startMsg (some "s2") (some "+1666")))).1.caller_number = some "+1666" ∧
    (onTelnyxMessage none true oneTurnCall inFlight
        (some (startMsg (some "s2") (some "+1666")))).2.1.responseStartTimestampTelnyx =
      none ∧
    (onTelnyxMessage none true oneTurnCall inFlight
        (some (startMsg (some "s2") (some "+1666")))).2.1.latestMediaTimestamp = 0 :=
  C16_start_event none true oneTurnCall inFlight (startMsg (some "s2") (some "+1666"))
    (some "s2") "+1666" rfl rfl (by decide)

/-! ## Mark queue and counts: lemmas -/

theorem sendMark_effect (s : Session) :
    (sendMark s).1.markQueue.length =
      s.markQueue.length + (if truthy s.streamId then 1 else 0) ∧
    (sendMark s).2.toTelnyx.any isClear = false ∧
    (sendMark s).2.toTelnyx.countP isMedia = 0 ∧
    (sendMark s).2.toTelnyx.countP isKnownMedia = 0 := by
  unfold sendMark
  cases hs : s.streamId with
  | none => simp [truthy, Out.nil]
  | some sid =>
    by_cases h : sid = ""
    · simp [truthy, h, Out.nil, hs]
    · simp [truthy, h, hs, isClear, isMedia, isKnownMedia]

theorem audioDeltaBranch_effect (s : Session) (response : Response) :
    (audioDeltaBranch s response).2.toTelnyx.any isClear = false ∧
    (audioDeltaBranch s response).1.markQueue.length =
      s.markQueue.length + (audioDeltaBranch s response).2.toTelnyx.countP isKnownMedia ∧
    (audioDeltaBranch s response).2.toTelnyx.countP isKnownMedia ≤
      (audioDeltaBranch s response).2.toTelnyx.countP isMedia := by
  unfold audioDeltaBranch
  split
  · have h := sendMark_effect
      (if truthy response.item_id = true then
        { (if (!truthyNum s.responseStartTimestampTelnyx) = true then
            { s with responseStartTimestampTelnyx := some s.latestMediaTimestamp }
          else s) with lastAssistantItem := response.item_id }
      else
        (if (!truthyNum s.responseStartTimestampTelnyx) = true then
            { s with responseStartTimestampTelnyx := some s.latestMediaTimestamp }
          else s))
    have hq : (if truthy response.item_id = true then
        { (if (!truthyNum s.responseStartTimestampTelnyx) = true then
            { s with responseStartTimestampTelnyx := some s.latestMediaTimestamp }
          else s) with lastAssistantItem := response.item_id }
      else
        (if (!truthyNum s.responseStartTimestampTelnyx) = true then
            { s with responseStartTimestampTelnyx := some s.latestMediaTimestamp }
          else s)).markQueue = s.markQueue := by
      split <;> split <;> rfl
    have hsid : (if truthy response.item_id = true then
        { (if (!truthyNum s.responseStartTimestampTelnyx) = true then
            { s with responseStartTimestampTelnyx := some s.latestMediaTimestamp }
          else s) with lastAssistantItem := response.item_id }
      else
        (if (!truthyNum s.responseStartTimestampTelnyx) = true then
            { s with responseStartTimestampTelnyx := some s.latestMediaTimestamp }
          else s)).streamId = s.streamId := by
      split <;> split <;> rfl
    rw [hq, hsid] at h
    obtain ⟨h1, h2, h3, h4⟩ := h
    simp only [Out.append, List.nil_append, List.singleton_append, List.any_cons,
      List.countP_cons, h1, h2, h3, h4, isClear, isMedia, isKnownMedia]
    by_cases ht : truthy s.streamId = true <;> simp [ht]
  · simp [Out.nil]

theorem handleSpeechStartedEvent_effect (s : Session) :
    ((handleSpeechStartedEvent s).2.toTelnyx.any isClear = true ∧
      (handleSpeechStartedEvent s).1.markQueue = []) ∨
    ((handleSpeechStartedEvent s).2.toTelnyx = [] ∧
      (handleSpeechStartedEvent s).1.markQueue = s.markQueue) := by
  unfold handleSpeechStartedEvent
  split
  · left; simp [isClear]
  · right; simp [Out.nil]

theorem speechStartedBranch_effect (s : Session) (response : Response) :
    ((speechStartedBranch s response).2.toTelnyx.any isClear = true ∧
      (speechStartedBranch s response).1.markQueue = []) ∨
    ((speechStartedBranch s response).2.toTelnyx = [] ∧
      (speechStartedBranch s response).1.markQueue = s.markQueue) := by
  unfold speechStartedBranch
  split
  · exact handleSpeechStartedEvent_effect s
  · right; simp [Out.nil]

theorem onOpenAiMessage_effect (cd : CallData) (s : Session) (data : Option Response) :
    ((onOpenAiMessage cd s data).2.2.toTelnyx.any isClear = true ∧
      (onOpenAiMessage cd s data).2.1.markQueue = []) ∨
    ((onOpenAiMessage cd s data).2.2.toTelnyx.any isClear = false ∧
      (onOpenAiMessage cd s data).2.1.markQueue.length =
        s.markQueue.length + (onOpenAiMessage cd s data).2.2.toTelnyx.countP isKnownMedia ∧
      (onOpenAiMessage cd s data).2.2.toTelnyx.countP isKnownMedia ≤
        (onOpenAiMessage cd s data).2.2.toTelnyx.countP isMedia) := by
  cases data with
  | none => right; simp [onOpenAiMessage, Out.nil]
  | some response =>
    cases h : contentDeltaBranch cd response with
    | none => right; simp [onOpenAiMessage, h, Out.nil]
    | some cd1 =>
      obtain ⟨a1, a2, a3⟩ := audioDeltaBranch_effect s response
      simp only [onOpenAiMessage, h, Out.append]
      rcases speechStartedBranch_effect (audioDeltaBranch s response).1 response with
        ⟨b1, b2⟩ | ⟨b1, b2⟩
      · left
        exact ⟨by simp [List.any_append, b1], b2⟩
      · right
        rw [b1, b2]
        simp only [List.append_nil]
        exact ⟨a1, a2, a3⟩

theorem onTelnyxMessage_effect (url : Option String) (aiOpen : Bool) (cd : CallData)
    (s : Session) (message : Option Data) :
    (onTelnyxMessage url aiOpen cd s message).2.2.toTelnyx = [] ∧
    (onTelnyxMessage url aiOpen cd s message).2.1.markQueue =
      if isMarkMessage (Event.telnyxMessage aiOpen message) then s.markQueue.tail
      else s.markQueue := by
  cases message with
  | none => simp [onTelnyxMessage, isMarkMessage, Out.nil]
  | some data =>
    by_cases hm : data.event = "mark"
    · rw [onTelnyxMessage_mark url aiOpen cd s data hm]
      simp [isMarkMessage, hm, Out.nil]
    · simp only [onTelnyxMessage, isMarkMessage, hm]
      split
      · split <;> simp [Out.nil, hm]
      · split
        · split <;> simp [Out.nil, hm]
        · split
          · rename_i hf
            exact absurd hf (by simp)
          · split <;> simp [Out.nil, hm]

theorem step_keeps_count (url : Option String) (cd : CallData) (s : Session) (t : Tally)
    (e : Event)
    (h : s.markQueue.length + t.appliedAcks = t.knownAudioFrames ∧
      t.knownAudioFrames ≤ t.audioFrames ∧ t.appliedAcks ≤ t.acks) :
    (step url cd s e).2.1.markQueue.length +
        (t.update s (step url cd s e).2.1 e (step url cd s e).2.2).appliedAcks =
      (t.update s (step url cd s e).2.1 e (step url cd s e).2.2).knownAudioFrames ∧
    (t.update s (step url cd s e).2.1 e (step url cd s e).2.2).knownAudioFrames ≤
      (t.update s (step url cd s e).2.1 e (step url cd s e).2.2).audioFrames ∧
    (t.update s (step url cd s e).2.1 e (step url cd s e).2.2).appliedAcks ≤
      (t.update s (step url cd s e).2.1 e (step url cd s e).2.2).acks := by
  obtain ⟨h1, h2, h3⟩ := h
  cases e with
  | openAiMessage data =>
    simp only [step]
    rcases onOpenAiMessage_effect cd s data with ⟨c1, c2⟩ | ⟨c1, c2, c3⟩
    · simp [Tally.update, c1, c2, Tally.zero]
    · simp only [Tally.update, c1, isMarkMessage, Bool.false_and, if_false, Bool.false_eq_true]
      omega
  | close =>
    simp only [step, onClose, Tally.update, isMarkMessage, Bool.false_and, if_false,
      Bool.false_eq_true, List.any_nil, List.countP_nil]
    omega
  | telnyxMessage aiOpen message =>
    obtain ⟨d1, d2⟩ := onTelnyxMessage_effect url aiOpen cd s message
    simp only [step, Tally.update, d1, d2, List.any_nil, List.countP_nil, if_false,
      Bool.false_eq_true]
    by_cases hm : isMarkMessage (Event.telnyxMessage aiOpen message) = true
    · cases hq : s.markQueue with
      | nil =>
        rw [hq] at h1
        simp [hm, Tally.zero]
        simp at h1
        omega
      | cons m rest =>
        rw [hq] at h1
        cases rest with
        | nil => simp [hm, Tally.zero]
        | cons m2 rest2 =>
          simp [hm]
          simp at h1
          omega
    · simp [hm]
      omega

theorem tallyRun_keeps_count (url : Option String) (evs : List Event) :
    ∀ (cd : CallData) (s : Session) (t : Tally),
      (s.markQueue.length + t.appliedAcks = t.knownAudioFrames ∧
        t.knownAudioFrames ≤ t.audioFrames ∧ t.appliedAcks ≤ t.acks) →
      (tallyRun url cd s t evs).1.markQueue.length + (tallyRun url cd s t evs).2.appliedAcks =
        (tallyRun url cd s t evs).2.knownAudioFrames ∧
      (tallyRun url cd s t evs).2.knownAudioFrames ≤ (tallyRun url cd s t evs).2.audioFrames ∧
      (tallyRun url cd s t evs).2.appliedAcks ≤ (tallyRun url cd s t evs).2.acks := by
  induction evs with
  | nil => intro cd s t h; exact h
  | cons e es ih =>
    intro cd s t h
    exact ih _ _ _ (step_keeps_count url cd s t e h)

theorem tallyRun_session (url : Option String) (evs : List Event) :
    ∀ (cd : CallData) (s : Session) (t : Tally),
      (tallyRun url cd s t evs).1 = (run url cd s evs).2.1 := by
  induction evs with
  | nil => intro cd s t; rfl
  | cons e es ih =>
    intro cd s t
    simp only [tallyRun, run]
    exact ih _ _ _

/-! ## Claim on the length of the mark queue -/

/-- C17 as stated fails. An audio delta that arrives before the stream has started sends
one audio frame to telephony and leaves `markQueue` empty: one frame sent, no
acknowledgment, length 0. A `mark` message on the empty queue is received and removes
nothing: no frame sent, one acknowledgment, length 0. Neither run contains an
interruption or a drain. -/
theorem C17_counterexample :
    (run none (incomingCall none none) Session.init earlyAudio).2.2.toTelnyx =
      [TelnyxFrame.media none (Delta.str "out1")] ∧
    (tallyRun none (incomingCall none none) Session.init Tally.zero earlyAudio).2 =
      ⟨1, 0, 0, 0⟩ ∧
    (tallyRun none (incomingCall none none) Session.init Tally.zero earlyAudio).1.markQueue =
      [] ∧
    (tallyRun none (incomingCall none none) Session.init Tally.zero strayMark).2 =
      ⟨0, 0, 1, 0⟩ ∧
    (tallyRun none (incomingCall none none) Session.init Tally.zero strayMark).1.markQueue =
      [] ∧
    ¬ (∀ evs : List Event,
        ((tallyRun none (incomingCall none none) Session.init Tally.zero
            evs).1.markQueue.length : Int) =
          ((tallyRun none (incomingCall none none) Session.init Tally.zero
              evs).2.audioFrames : Int) -
            ((tallyRun none (incomingCall none none) Session.init Tally.zero
              evs).2.acks : Int)) := by
  refine ⟨by decide, by decide, by decide, by decide, by decide, ?_⟩
  intro h
  exact absurd (h earlyAudio) (by decide)

/-- C17 (amended): in every state reached from the initial connection state by any
sequence of events, the length of `markQueue` equals the number of audio frames sent to
telephony with a known stream id since the last interruption reset or drain, minus the
number of `mark` messages received since then while the queue was non-empty. Audio frames
sent while the stream id is unknown and `mark` messages received on an empty queue are
left out of the count, so the difference is never negative. -/
theorem C17_queue_length_counts_marks (url : Option String) (cd : CallData)
    (evs : List Event) :
    (tallyRun url cd Session.init Tally.zero evs).1 = (run url cd Session.init evs).2.1 ∧
    (run url cd Session.init evs).2.1.markQueue.length +
        (tallyRun url cd Session.init Tally.zero evs).2.appliedAcks =
      (tallyRun url cd Session.init Tally.zero evs).2.knownAudioFrames ∧
    (tallyRun url cd Session.init Tally.zero evs).2.knownAudioFrames ≤
      (tallyRun url cd Session.init Tally.zero evs).2.audioFrames ∧
    (tallyRun url cd Session.init Tally.zero evs).2.appliedAcks ≤
      (tallyRun url cd Session.init Tally.zero evs).2.acks := by
  have h := tallyRun_keeps_count url evs cd Session.init Tally.zero
    ⟨rfl, Nat.le_refl _, Nat.le_refl _⟩
  rw [tallyRun_session] at h
  exact ⟨tallyRun_session url evs cd Session.init Tally.zero, h⟩

/-- Witness for the amended C17 on `busyCall`: two audio frames and one acknowledgment
leave one entry; the interruption restarts the counts; the next audio frame leaves one
entry again. -/
theorem C17_queue_length_counts_marks_witness :
    (run none (incomingCall none none) Session.init (busyCall.take 5)).2.1.markQueue =
      ["responsePart"] ∧
    (tallyRun none (incomingCall none none) Session.init Tally.zero (busyCall.take 5)).2 =
      ⟨2, 2, 1, 1⟩ ∧
    (tallyRun none (incomingCall none none) Session.init Tally.zero (busyCall.take 6)).2 =
      ⟨0, 0, 0, 0⟩ ∧
    (tallyRun none (incomingCall none none) Session.init Tally.zero busyCall).2 =
      ⟨1, 1, 0, 0⟩ ∧
    (run none (incomingCall none none) Session.init busyCall).2.1.markQueue.length +
        (tallyRun none (incomingCall none none) Session.init Tally.zero
          busyCall).2.appliedAcks =
      (tallyRun none (incomingCall none none) Session.init Tally.zero
        busyCall).2.knownAudioFrames :=
  ⟨by decide, by decide, by decide, by decide,
   (C17_queue_length_counts_marks none (incomingCall none none) busyCall).2.1⟩

/-! ## Claim on the external status override -/

/-- C18 fails on the code for a request without a body. The override then answers 500
with no `success` field, not 400 with `success: false`: the destructuring of line 399
throws before the test of line 401 is reached. For a request with a body the override
does what the claim says: it succeeds, setting the status to the requested value, exactly
when that value is `Resolved` or `Unresolved`, and for any other value, a missing `status`
field included, it answers 400 with `success: false`; in every case but success the call
record is unchanged. -/
theorem C18_absent_body_is_answered_500 (cd : CallData) (status : Option String) :
    updateStatus cd none = (cd, ⟨500, none⟩) ∧
    (updateStatus cd none).2 ≠ ⟨400, some false⟩ ∧
    ((updateStatus cd (some status)).2.success = some true ↔
      status = some "Resolved" ∨ status = some "Unresolved") ∧
    (∀ v, status = some v → v = "Resolved" ∨ v = "Unresolved" →
      updateStatus cd (some status) = ({ cd with status := v }, ⟨200, some true⟩)) ∧
    (¬ (status = some "Resolved" ∨ status = some "Unresolved") →
      updateStatus cd (some status) = (cd, ⟨400, some false⟩)) := by
  have hcode : (500 : Nat) ≠ 400 := by decide
  refine ⟨rfl, fun h => hcode (congrArg Reply.code h), ?_⟩
  cases status with
  | none => simp [updateStatus]
  | some v =>
    by_cases h : v = "Resolved" ∨ v = "Unresolved"
    · simp [updateStatus, h]
    · have h2 : ¬ (some v = some "Resolved" ∨ some v = some "Unresolved") := by
        simpa using h
      simp [updateStatus, h, h2]
      exact not_or.mp h

/-- Witness for C18 on `resolvedCall`: no body gives 500 and no `success` field;
`Unresolved` is applied; `Done` and a body without `status` are rejected with 400 and
leave the record as it was. -/
theorem C18_absent_body_is_answered_500_witness :
    updateStatus resolvedCall none = (resolvedCall, ⟨500, none⟩) ∧
    updateStatus resolvedCall (some (some "Unresolved")) =
      ({ resolvedCall with status := "Unresolved" }, ⟨200, some true⟩) ∧
    updateStatus resolvedCall (some (some "Done")) = (resolvedCall, ⟨400, some false⟩) ∧
    updateStatus resolvedCall (some none) = (resolvedCall, ⟨400, some false⟩) :=
  ⟨(C18_absent_body_is_answered_500 resolvedCall none).1,
   (C18_absent_body_is_answered_500 resolvedCall (some "Unresolved")).2.2.2.1 "Unresolved"
      rfl (Or.inr rfl),
   (C18_absent_body_is_answered_500 resolvedCall (some "Done")).2.2.2.2 (by decide),
   (C18_absent_body_is_answered_500 resolvedCall none).2.2.2.2 (by decide)⟩

/-! ## Two connections: lemmas -/

theorem contentDeltaBranch_none_type (cd : CallData) (response : Response)
    (h : contentDeltaBranch cd response = none) : response.type = "response.content.delta" := by
  unfold contentDeltaBranch at h
  split at h
  · split at h
    · rename_i ht
      exact ht.1
    · exact absurd h (by simp)
  · exact absurd h (by simp)

theorem onOpenAiMessage_session_indep (cd cd2 : CallData) (s : Session)
    (data : Option Response) :
    (onOpenAiMessage cd s data).2.1 = (onOpenAiMessage cd2 s data).2.1 ∧
    (onOpenAiMessage cd s data).2.2.toAi = (onOpenAiMessage cd2 s data).2.2.toAi ∧
    (onOpenAiMessage cd s data).2.2.toTelnyx = (onOpenAiMessage cd2 s data).2.2.toTelnyx := by
  cases data with
  | none => exact ⟨rfl, rfl, rfl⟩
  | some response =>
    have key : ∀ cd0 : CallData,
        (onOpenAiMessage cd0 s (some response)).2.1 =
          (speechStartedBranch (audioDeltaBranch s response).1 response).1 ∧
        (onOpenAiMessage cd0 s (some response)).2.2.toAi =
          (audioDeltaBranch s response).2.toAi ++
            (speechStartedBranch (audioDeltaBranch s response).1 response).2.toAi ∧
        (onOpenAiMessage cd0 s (some response)).2.2.toTelnyx =
          (audioDeltaBranch s response).2.toTelnyx ++
            (speechStartedBranch (audioDeltaBranch s response).1 response).2.toTelnyx := by
      intro cd0
      cases h : contentDeltaBranch cd0 response with
      | none =>
        have ht := contentDeltaBranch_none_type cd0 response h
        simp [onOpenAiMessage, h, audioDeltaBranch, speechStartedBranch, ht, Out.nil]
      | some cd1 => simp [onOpenAiMessage, h, Out.append]
    obtain ⟨a1, a2, a3⟩ := key cd
    obtain ⟨b1, b2, b3⟩ := key cd2
    exact ⟨a1.trans b1.symm, a2.trans b2.symm, a3.trans b3.symm⟩

theorem onTelnyxMessage_session_indep (url : Option String) (aiOpen : Bool)
    (cd cd2 : CallData) (s : Session) (message : Option Data) :
    (onTelnyxMessage url aiOpen cd s message).2.1 =
      (onTelnyxMessage url aiOpen cd2 s message).2.1 ∧
    (onTelnyxMessage url aiOpen cd s message).2.2.toAi =
      (onTelnyxMessage url aiOpen cd2 s message).2.2.toAi ∧
    (onTelnyxMessage url aiOpen cd s message).2.2.toTelnyx =
      (onTelnyxMessage url aiOpen cd2 s message).2.2.toTelnyx := by
  cases message with
  | none => exact ⟨rfl, rfl, rfl⟩
  | some data =>
    simp only [onTelnyxMessage]
    split
    · split <;> exact ⟨rfl, rfl, rfl⟩
    · split
      · split <;> exact ⟨rfl, rfl, rfl⟩
      · split
        · split <;> exact ⟨rfl, rfl, rfl⟩
        · split <;> exact ⟨rfl, rfl, rfl⟩

theorem step_session_indep (url : Option String) (cd cd2 : CallData) (s : Session)
    (e : Event) :
    (step url cd s e).2.1 = (step url cd2 s e).2.1 ∧
    (step url cd s e).2.2.toAi = (step url cd2 s e).2.2.toAi ∧
    (step url cd s e).2.2.toTelnyx = (step url cd2 s e).2.2.toTelnyx := by
  cases e with
  | openAiMessage data => exact onOpenAiMessage_session_indep cd cd2 s data
  | telnyxMessage aiOpen message =>
    exact onTelnyxMessage_session_indep url aiOpen cd cd2 s message
  | close => exact ⟨rfl, rfl, rfl⟩

theorem step_record_indep (url : Option String) (cd : CallData) (s s2 : Session)
    (e : Event) :
    (step url cd s e).1 = (step url cd s2 e).1 ∧
    (step url cd s e).2.2.webhook = (step url cd s2 e).2.2.webhook := by
  cases e with
  | close => exact ⟨rfl, rfl⟩
  | openAiMessage data =>
    cases data with
    | none => exact ⟨rfl, rfl⟩
    | some response =>
      simp only [step, onOpenAiMessage_webhook, and_true]
      cases h : contentDeltaBranch cd response with
      | none => simp only [onOpenAiMessage, h]
      | some cd1 => simp only [onOpenAiMessage, h]
  | telnyxMessage aiOpen message =>
    cases message with
    | none => exact ⟨rfl, rfl⟩
    | some data =>
      simp only [step, onTelnyxMessage]
      split
      · split <;> exact ⟨rfl, rfl⟩
      · split
        · split <;> exact ⟨rfl, rfl⟩
        · split
          · split <;> split <;> exact ⟨rfl, rfl⟩
          · split <;> exact ⟨rfl, rfl⟩

theorem run_cons (url : Option String) (cd : CallData) (s : Session) (e : Event)
    (es : List Event) :
    run url cd s (e :: es) =
      ((run url (step url cd s e).1 (step url cd s e).2.1 es).1,
       (run url (step url cd s e).1 (step url cd s e).2.1 es).2.1,
       (step url cd s e).2.2.append
         (run url (step url cd s e).1 (step url cd s e).2.1 es).2.2) := rfl

theorem run2_sessions_aux (url : Option String) (cd cd2 : CallData) (s : Session)
    (evs : List Event) :
    (run url cd s evs).2.1 = (run url cd2 s evs).2.1 ∧
    (run url cd s evs).2.2.toAi = (run url cd2 s evs).2.2.toAi ∧
    (run url cd s evs).2.2.toTelnyx = (run url cd2 s evs).2.2.toTelnyx := by
  induction evs generalizing cd cd2 s with
  | nil => exact ⟨rfl, rfl, rfl⟩
  | cons e es ih =>
    obtain ⟨i1, i2, i3⟩ := step_session_indep url cd cd2 s e
    obtain ⟨j1, j2, j3⟩ := ih (step url cd s e).1 (step url cd2 s e).1 (step url cd s e).2.1
    rw [run_cons, run_cons]
    simp only [Out.append]
    rw [← i1]
    exact ⟨j1, by rw [j2, i2], by rw [j3, i3]⟩

theorem run2_sessions (url : Option String) (evs : List (Conn × Event)) :
    ∀ (w : Process) (cd2 : CallData),
      ((run2 url w evs).1.sessionA = (run url cd2 w.sessionA (eventsOf Conn.A evs)).2.1 ∧
        (run2 url w evs).2.1.toAi =
          (run url cd2 w.sessionA (eventsOf Conn.A evs)).2.2.toAi ∧
        (run2 url w evs).2.1.toTelnyx =
          (run url cd2 w.sessionA (eventsOf Conn.A evs)).2.2.toTelnyx) ∧
      ((run2 url w evs).1.sessionB = (run url cd2 w.sessionB (eventsOf Conn.B evs)).2.1 ∧
        (run2 url w evs).2.2.toAi =
          (run url cd2 w.sessionB (eventsOf Conn.B evs)).2.2.toAi ∧
        (run2 url w evs).2.2.toTelnyx =
          (run url cd2 w.sessionB (eventsOf Conn.B evs)).2.2.toTelnyx) := by
  induction evs with
  | nil => intro w cd2; exact ⟨⟨rfl, rfl, rfl⟩, ⟨rfl, rfl, rfl⟩⟩
  | cons ce rest ih =>
    intro w cd2
    obtain ⟨c, e⟩ := ce
    cases c with
    | A =>
      obtain ⟨i1, i2, i3⟩ := step_session_indep url w.currentCallData cd2 w.sessionA e
      have hA : eventsOf Conn.A ((Conn.A, e) :: rest) = e :: eventsOf Conn.A rest := by
        simp [eventsOf]
      have hB : eventsOf Conn.B ((Conn.A, e) :: rest) = eventsOf Conn.B rest := by
        simp [eventsOf]
      obtain ⟨⟨a1, a2, a3⟩, ⟨b1, b2, b3⟩⟩ :=
        ih (step2 url w Conn.A e).1 (step url cd2 w.sessionA e).1
      have hsA : (step2 url w Conn.A e).1.sessionA = (step url cd2 w.sessionA e).2.1 := i1
      have hsB : (step2 url w Conn.A e).1.sessionB = w.sessionB := rfl
      rw [hsA] at a1 a2 a3
      rw [hsB] at b1 b2 b3
      obtain ⟨j1, j2, j3⟩ := run2_sessions_aux url cd2 (step url cd2 w.sessionA e).1
        w.sessionB (eventsOf Conn.B rest)
      rw [hA, hB, run_cons]
      simp only [run2, Out.append]
      refine ⟨⟨a1, ?_, ?_⟩, ⟨b1.trans j1.symm, b2.trans j2.symm, b3.trans j3.symm⟩⟩
      · rw [a2]; exact congrArg (· ++ _) i2
      · rw [a3]; exact congrArg (· ++ _) i3
    | B =>
      obtain ⟨i1, i2, i3⟩ := step_session_indep url w.currentCallData cd2 w.sessionB e
      have hA : eventsOf Conn.A ((Conn.B, e) :: rest) = eventsOf Conn.A rest := by
        simp [eventsOf]
      have hB : eventsOf Conn.B ((Conn.B, e) :: rest) = e :: eventsOf Conn.B rest := by
        simp [eventsOf]
      obtain ⟨⟨a1, a2, a3⟩, ⟨b1, b2, b3⟩⟩ :=
        ih (step2 url w Conn.B e).1 (step url cd2 w.sessionB e).1
      have hsB : (step2 url w Conn.B e).1.sessionB = (step url cd2 w.sessionB e).2.1 := i1
      have hsA : (step2 url w Conn.B e).1.sessionA = w.sessionA := rfl
      rw [hsB] at b1 b2 b3
      rw [hsA] at a1 a2 a3
      obtain ⟨j1, j2, j3⟩ := run2_sessions_aux url cd2 (step url cd2 w.sessionB e).1
        w.sessionA (eventsOf Conn.A rest)
      rw [hA, hB, run_cons]
      simp only [run2, Out.append]
      refine ⟨⟨a1.trans j1.symm, a2.trans j2.symm, a3.trans j3.symm⟩, ⟨b1, ?_, ?_⟩⟩
      · rw [b2]; exact congrArg (· ++ _) i2
      · rw [b3]; exact congrArg (· ++ _) i3

theorem run_record_indep (url : Option String) (cd : CallData) (s s2 : Session)
    (evs : List Event) :
    (run url cd s evs).1 = (run url cd s2 evs).1 := by
  induction evs generalizing cd s s2 with
  | nil => rfl
  | cons e es ih =>
    rw [run_cons, run_cons]
    simp only
    rw [(step_record_indep url cd s s2 e).1]
    exact ih _ _ _

theorem run2_record (url : Option String) (evs : List (Conn × Event)) :
    ∀ (w : Process) (s2 : Session),
      (run2 url w evs).1.currentCallData =
        (run url w.currentCallData s2 (evs.map fun ce => ce.2)).1 := by
  induction evs with
  | nil => intro w s2; rfl
  | cons ce rest ih =>
    intro w s2
    obtain ⟨c, e⟩ := ce
    cases c with
    | A =>
      have h := ih (step2 url w Conn.A e).1 (step url w.currentCallData s2 e).2.1
      have hcd : (step2 url w Conn.A e).1.currentCallData =
          (step url w.currentCallData s2 e).1 :=
        (step_record_indep url w.currentCallData w.sessionA s2 e).1
      rw [hcd] at h
      simp only [List.map_cons, run_cons, run2]
      exact h
    | B =>
      have h := ih (step2 url w Conn.B e).1 (step url w.currentCallData s2 e).2.1
      have hcd : (step2 url w Conn.B e).1.currentCallData =
          (step url w.currentCallData s2 e).1 :=
        (step_record_indep url w.currentCallData w.sessionB s2 e).1
      rw [hcd] at h
      simp only [List.map_cons, run_cons, run2]
      exact h

/-! ## Claim on session isolation -/

/-- C19 as stated fails: with a start from `+1999` and the text delta `All resolved` of
connection `A` interleaved, the `stop` of connection `B` hands over a record with caller
`+1999`, status `Resolved` and the notes of that delta; handled alone, the same `stop` of
`B` hands over caller `+1555`, status `Unresolved` and empty notes. -/
theorem C19_counterexample :
    (run2 (some "https://hook") twoCalls crossTalk).2.2.webhook =
      [⟨some "co", some "+1999", "Resolved", "assistant: All resolved"⟩] ∧
    eventsOf Conn.B crossTalk = [.telnyxMessage true (some (bareMsg "stop"))] ∧
    (run (some "https://hook") twoCalls.currentCallData twoCalls.sessionB
        (eventsOf Conn.B crossTalk)).2.2.webhook =
      [⟨some "co", some "+1555", "Unresolved", ""⟩] := by
  decide

/-- C19 (amended): of two connections active at the same time, only the
connection-specific variables (`streamId`, `latestMediaTimestamp`, `lastAssistantItem`,
`markQueue`, `responseStartTimestampTelnyx`) and the frames sent on the two sockets are
isolated: for each connection they are what its own events alone produce, whatever the
other connection does. The call record is one object of the process: it ends as if all
events of both connections, in their interleaved order, had been handled on it, so the
record finalized for one connection depends on the events of the other. -/
theorem C19_only_connection_state_is_isolated (url : Option String) (w : Process)
    (evs : List (Conn × Event)) (cd2 : CallData) (s2 : Session) :
    ((run2 url w evs).1.sessionA = (run url cd2 w.sessionA (eventsOf Conn.A evs)).2.1 ∧
      (run2 url w evs).2.1.toAi = (run url cd2 w.sessionA (eventsOf Conn.A evs)).2.2.toAi ∧
      (run2 url w evs).2.1.toTelnyx =
        (run url cd2 w.sessionA (eventsOf Conn.A evs)).2.2.toTelnyx) ∧
    ((run2 url w evs).1.sessionB = (run url cd2 w.sessionB (eventsOf Conn.B evs)).2.1 ∧
      (run2 url w evs).2.2.toAi = (run url cd2 w.sessionB (eventsOf Conn.B evs)).2.2.toAi ∧
      (run2 url w evs).2.2.toTelnyx =
        (run url cd2 w.sessionB (eventsOf Conn.B evs)).2.2.toTelnyx) ∧
    (run2 url w evs).1.currentCallData =
      (run url w.currentCallData s2 (evs.map fun ce => ce.2)).1 :=
  ⟨(run2_sessions url evs w cd2).1, (run2_sessions url evs w cd2).2, run2_record url evs w s2⟩

/-! ## Conversation log: lemmas on its shape -/

theorem find_isSome_iff_mem (item_id : Option String) (log : List Turn)
    (hall : ∀ t ∈ log, t.role = "assistant") :
    (log.find? (isAssistantItem item_id)).isSome = true ↔
      item_id ∈ log.map fun t => t.tempId := by
  rw [List.find?_isSome, List.mem_map]
  constructor
  · rintro ⟨t, ht, hp⟩
    exact ⟨t, ht, ((isAssistantItem_iff item_id t).mp hp).2⟩
  · rintro ⟨t, ht, hid⟩
    exact ⟨t, ht, (isAssistantItem_iff item_id t).mpr ⟨hall t ht, hid⟩⟩

theorem appendToFound_tempIds (p : Turn → Bool) (text : String) (log : List Turn) :
    (appendToFound p text log).map (fun t => t.tempId) = log.map fun t => t.tempId := by
  induction log with
  | nil => rfl
  | cons item rest ih =>
    by_cases h : p item = true <;> simp [appendToFound, h, ih]

theorem appendToFound_roles (p : Turn → Bool) (text : String) (log : List Turn) :
    (appendToFound p text log).map (fun t => t.role) = log.map fun t => t.role := by
  induction log with
  | nil => rfl
  | cons item rest ih =>
    by_cases h : p item = true <;> simp [appendToFound, h, ih]

theorem appendToFound_others (item_id : Option String) (text : String) (log : List Turn) :
    (appendToFound (isAssistantItem item_id) text log).filter (fun t => t.tempId != item_id) =
      log.filter fun t => t.tempId != item_id := by
  induction log with
  | nil => rfl
  | cons item rest ih =>
    by_cases h : isAssistantItem item_id item = true
    · have hid : item.tempId = item_id := ((isAssistantItem_iff item_id item).mp h).2
      simp [appendToFound, h, List.filter_cons, hid]
    · simp [appendToFound, h, List.filter_cons, ih]

theorem all_assistant_of_roles (log log2 : List Turn)
    (h : log2.map (fun t => t.role) = log.map fun t => t.role)
    (hall : ∀ t ∈ log, t.role = "assistant") : ∀ t ∈ log2, t.role = "assistant" := by
  intro t ht
  have hm : t.role ∈ log2.map fun t => t.role := List.mem_map.mpr ⟨t, ht, rfl⟩
  rw [h] at hm
  obtain ⟨u, hu, hr⟩ := List.mem_map.mp hm
  rw [← hr]
  exact hall u hu

theorem addDelta_seen (item_id : Option String) (text : String) (log : List Turn)
    (hall : ∀ t ∈ log, t.role = "assistant")
    (hmem : item_id ∈ log.map fun t => t.tempId) :
    addDelta log item_id text = appendToFound (isAssistantItem item_id) text log := by
  have hf := (find_isSome_iff_mem item_id log hall).mpr hmem
  simp [addDelta, hf]

theorem addDelta_unseen (item_id : Option String) (text : String) (log : List Turn)
    (hall : ∀ t ∈ log, t.role = "assistant")
    (hmem : item_id ∉ log.map fun t => t.tempId) :
    addDelta log item_id text = log ++ [⟨"assistant", text, item_id⟩] := by
  have hf : (log.find? (isAssistantItem item_id)).isSome = false := by
    cases hb : (log.find? (isAssistantItem item_id)).isSome with
    | false => rfl
    | true => exact absurd ((find_isSome_iff_mem item_id log hall).mp hb) hmem
  simp [addDelta, hf]

theorem addDelta_all_assistant (item_id : Option String) (text : String) (log : List Turn)
    (hall : ∀ t ∈ log, t.role = "assistant") :
    ∀ t ∈ addDelta log item_id text, t.role = "assistant" := by
  by_cases hmem : item_id ∈ log.map fun t => t.tempId
  · rw [addDelta_seen item_id text log hall hmem]
    exact all_assistant_of_roles log _ (appendToFound_roles _ text log) hall
  · rw [addDelta_unseen item_id text log hall hmem]
    intro t ht
    rcases List.mem_append.mp ht with h | h
    · exact hall t h
    · rw [List.mem_singleton.mp h]

theorem addDeltas_shape (ds : List (Option String × String)) :
    ∀ log : List Turn, (∀ t ∈ log, t.role = "assistant") →
      ((addDeltas log ds).map fun t => t.tempId) = firstIds (log.map fun t => t.tempId) ds ∧
      ∀ t ∈ addDeltas log ds, t.role = "assistant" := by
  induction ds with
  | nil => intro log hall; exact ⟨rfl, hall⟩
  | cons d ds ih =>
    intro log hall
    have h := ih (addDelta log d.1 d.2) (addDelta_all_assistant d.1 d.2 log hall)
    simp only [addDeltas, List.foldl_cons] at h ⊢
    refine ⟨?_, h.2⟩
    rw [h.1]
    by_cases hmem : d.1 ∈ log.map fun t => t.tempId
    · rw [addDelta_seen d.1 d.2 log hall hmem, appendToFound_tempIds]
      simp [firstIds, hmem]
    · rw [addDelta_unseen d.1 d.2 log hall hmem]
      simp only [firstIds, hmem, if_false, List.map_append, List.map_cons, List.map_nil]

theorem firstIds_nodup (ds : List (Option String × String)) :
    ∀ seen : List (Option String), seen.Nodup → (firstIds seen ds).Nodup := by
  induction ds with
  | nil => intro seen h; exact h
  | cons d ds ih =>
    intro seen h
    by_cases hmem : d.1 ∈ seen
    · simpa [firstIds, hmem] using ih seen h
    · have h2 : (seen ++ [d.1]).Nodup := by
        rw [List.nodup_append]
        refine ⟨h, List.nodup_singleton _, ?_⟩
        intro a ha hb
        rw [List.mem_singleton.mp hb] at ha
        exact absurd ha hmem
      simpa [firstIds, hmem] using ih _ h2

/-! ## Claim on the shape of the conversation log -/

/-- C20: uniqueness in the conversation log. Starting from the empty log, after any
sequence of textual content deltas every turn is an assistant turn, no two turns carry the
same item id, and the turns stand in the order of the first delta of their item id. A
further delta for an item id already in the log changes neither the number of turns nor
their ids nor any turn of another id. -/
theorem C20_one_turn_per_item (url : Option String) (cd : CallData) (s : Session)
    (ds : List (Option String × String)) (hc : cd.conversation = some []) :
    ∃ log, (run url cd s (textDeltaEvents ds)).1.conversation = some log ∧
      (∀ t ∈ log, t.role = "assistant") ∧
      (log.map fun t => t.tempId).Nodup ∧
      (log.map fun t => t.tempId) = firstIds [] ds ∧
      ∀ item_id text, item_id ∈ (log.map fun t => t.tempId) →
        (addDelta log item_id text).length = log.length ∧
        ((addDelta log item_id text).map fun t => t.tempId) = (log.map fun t => t.tempId) ∧
        (addDelta log item_id text).filter (fun t => t.tempId != item_id) =
          log.filter fun t => t.tempId != item_id := by
  refine ⟨addDeltas [] ds, run_textDeltaEvents_conversation url ds cd s [] hc, ?_⟩
  have hshape := addDeltas_shape ds [] (by simp)
  refine ⟨hshape.2, ?_, hshape.1, ?_⟩
  · rw [hshape.1]
    exact firstIds_nodup ds [] List.nodup_nil
  · intro item_id text hmem
    rw [addDelta_seen item_id text _ hshape.2 hmem]
    have hids := appendToFound_tempIds (isAssistantItem item_id) text (addDeltas [] ds)
    refine ⟨?_, hids, appendToFound_others item_id text _⟩
    have := congrArg List.length hids
    simpa using this

/-- Witness for C20: the deltas `interleaved` (items `r1`, `r2`, `r1`, `r3`, `r2`) give
three turns, in the order `r1`, `r2`, `r3`. -/
theorem C20_one_turn_per_item_witness :
    (∃ log, (run none (incomingCall none none) Session.init
        (textDeltaEvents interleaved)).1.conversation = some log ∧
      (∀ t ∈ log, t.role = "assistant") ∧
      (log.map fun t => t.tempId).Nodup ∧
      (log.map fun t => t.tempId) = firstIds [] interleaved ∧
      ∀ item_id text, item_id ∈ (log.map fun t => t.tempId) →
        (addDelta log item_id text).length = log.length ∧
        ((addDelta log item_id text).map fun t => t.tempId) = (log.map fun t => t.tempId) ∧
        (addDelta log item_id text).filter (fun t => t.tempId != item_id) =
          log.filter fun t => t.tempId != item_id) ∧
    (run none (incomingCall none none) Session.init
        (textDeltaEvents interleaved)).1.conversation =
      some [⟨"assistant", "Hello", some "r1"⟩, ⟨"assistant", "Goodbye", some "r2"⟩,
            ⟨"assistant", "Hi", some "r3"⟩] ∧
    firstIds [] interleaved = [some "r1", some "r2", some "r3"] :=
  ⟨C20_one_turn_per_item none (incomingCall none none) Session.init interleaved rfl,
   by decide, by decide⟩

end Clnrounte
